import Mathlib

/-
Verification development for the stlab channel runtime (src/stlab/channel.hpp).

The model is a shallow embedding of the shared_process scheduling core:

* Every pipeline stage is a `Stage` record mirroring the fields of
  `shared_process<T, Arg>` (message queue, process_running, suspend_count,
  close_queue, final, sender/receiver counts, upstream back pointer and the
  downstream sender list, held as stage indices).
* A system `Sys` is a family of stages plus the executor.  The external
  executor collaborator (`default_scheduler()(task)`) is modelled as a task
  stack: `schedule` pushes the stage index whose `step` was submitted, and
  `Sys.drain` pops and runs one whole `step` at a time.  A scheduled step
  body runs atomically in this model; the executor runs the most recently
  submitted task first (one admissible executor).
* The user process of a stage is a `ProcKind`: either a plain unary function
  (the `has_process_yield = false` fast path, as produced by `channel<T>()`
  with `identity` or by composing a lambda), or a one-value buffering process
  in the shape of `function_process` (await stores the argument, yield
  applies the function and clears, state flips between await and yield).
  Each kind also records whether the user type has a `close()` member
  (`has_process_close` is independent of `has_process_yield` in the source).
* Ghost fields (`consumed`, `sentOut`, `ctsInFromDown`, `closeCount`,
  `closeLog`, `assertViolated`) record observations only; they never feed
  back into control flow.

Values carried by the channels are specialised to `Int`.
-/

namespace StlabChannel

/-- Mirror of `enum class process_state { await, await_try, yield }`. -/
inductive PState where
  | await : PState
  | await_try : PState
  | yield : PState
deriving DecidableEq, Repr

/-- The user process owned by a stage.

`mapK f hasClose` is a process without a `yield` member (a plain function
object such as `identity` or a lambda); `shared_process` then uses the
one-shot `step` variant and invokes the process as `f` directly.

`fnK f hasClose bound` is a process with a `yield` member shaped like
`function_process<R(Arg)>`: `bound = some v` means an argument is stored and
`_done = false` (state `yield`); `bound = none` means `_done = true`
(state `await`).  `hasClose` records whether the user type has a `close()`
member that `process_close` would invoke. -/
inductive ProcKind where
  | mapK : (Int → Int) → Bool → ProcKind
  | fnK : (Int → Int) → Bool → Option Int → ProcKind

/-- The unary function a process applies to each input. -/
def ProcKind.fn : ProcKind → (Int → Int)
  | .mapK f _ => f
  | .fnK f _ _ => f

/-- Whether `has_process_close` holds for the process type. -/
def ProcKind.hasCloseHook : ProcKind → Bool
  | .mapK _ hc => hc
  | .fnK _ hc _ => hc

/-- Mirror of `get_process_state`: a process without a `state` member reports
`await`; `function_process::state` reports `yield` iff an argument is bound. -/
def ProcKind.procState : ProcKind → PState
  | .mapK _ _ => PState.await
  | .fnK _ _ bound => if bound.isSome then PState.yield else PState.await

/-- A process kind in its idle shape (no argument buffered mid-step). -/
def ProcKind.isIdle : ProcKind → Bool
  | .mapK _ _ => true
  | .fnK _ _ bound => bound.isNone

/-- Whether the stage both has a `yield` member and a `close()` member, i.e.
whether the source ever reaches `process_close` with a real hook for it. -/
def ProcKind.isYieldWithClose : ProcKind → Bool
  | .mapK _ _ => false
  | .fnK _ hc _ => hc

/-- One `shared_process` object.  Fields mirror the C++ members; the last four
are ghost observation logs. -/
@[ext]
structure Stage where
  kind : ProcKind
  queue : List Int
  running : Bool
  suspendCount : Nat
  closeQueue : Bool
  final : Bool
  senderCount : Nat
  receiverCount : Nat
  upstream : Option Nat
  downstream : List Nat
  consumed : List Int
  sentOut : List Int
  ctsInFromDown : Nat
  closeCount : Nat

end StlabChannel

namespace StlabChannel

/-- A whole pipeline: the stages (indexed by allocation order, head = 0), the
executor task stack, and two global ghost observations: the order in which
user `close()` hooks fired, and whether the `task_done` contract assertion
`!(do_run && do_final)` was ever violated. -/
@[ext]
structure Sys where
  stages : Nat → Stage
  tasks : List Nat
  closeLog : List Nat
  assertViolated : Bool

/-- Read the stage record at index `i`. -/
def Sys.get (s : Sys) (i : Nat) : Stage := s.stages i

/-- Replace the stage record at index `i`. -/
def Sys.set (s : Sys) (i : Nat) (st : Stage) : Sys :=
  { s with stages := fun j => if j = i then st else s.stages j }

/-- Mirror of `run()` handing the step task to the executor: push stage `i`
on the task stack. -/
def Sys.schedule (s : Sys) (i : Nat) : Sys :=
  { s with tasks := i :: s.tasks }

/-- Mirror of `shared_process::send`: enqueue under the lock, start a step if
no receiver handle is outstanding and no step is running. -/
def Sys.sendTo (s : Sys) (i : Nat) (v : Int) : Sys :=
  let st := s.get i
  let st1 := { st with queue := st.queue ++ [v] }
  let doRun := (st1.receiverCount == 0) && !st1.running
  let st2 := { st1 with running := st1.running || doRun }
  let s1 := s.set i st2
  if doRun then s1.schedule i else s1

/-- Mirror of `shared_process::add_sender`. -/
def Sys.addSender (s : Sys) (i : Nat) : Sys :=
  let st := s.get i
  s.set i { st with senderCount := st.senderCount + 1 }

/-- Mirror of `shared_process::remove_sender`: on the zero transition set
`close_queue` and kick a step if nobody else will. -/
def Sys.removeSender (s : Sys) (i : Nat) : Sys :=
  let st := s.get i
  let sc := st.senderCount - 1
  if sc = 0 then
    let st1 := { st with senderCount := sc, closeQueue := true }
    let doRun := (st1.receiverCount == 0) && !st1.running
    let st2 := { st1 with running := st1.running || doRun }
    let s1 := s.set i st2
    if doRun then s1.schedule i else s1
  else s.set i { st with senderCount := sc }

/-- Mirror of `shared_process::add_receiver` (non-void result type). -/
def Sys.addReceiver (s : Sys) (i : Nat) : Sys :=
  let st := s.get i
  s.set i { st with receiverCount := st.receiverCount + 1 }

/-- Mirror of `shared_process::remove_receiver` (non-void result type): on the
zero transition kick a step when there is queued work or a pending close. -/
def Sys.removeReceiver (s : Sys) (i : Nat) : Sys :=
  let st := s.get i
  let rc := st.receiverCount - 1
  if rc = 0 then
    let st1 := { st with receiverCount := rc }
    let doRun := (!st1.queue.isEmpty || st1.closeQueue) && !st1.running
    let st2 := { st1 with running := st1.running || doRun }
    let s1 := s.set i st2
    if doRun then s1.schedule i else s1
  else s.set i { st with receiverCount := rc }

/-- Mirror of `shared_process::cts`: decrement `suspend_count`; on reaching
zero, either schedule another step (process ready to yield, queued input, or
pending close) or clear `process_running`. -/
def Sys.cts (s : Sys) (i : Nat) : Sys :=
  let st := s.get i
  let st1 := { st with suspendCount := st.suspendCount - 1 }
  if st1.suspendCount = 0 then
    if st1.kind.procState = PState.yield ∨ st1.queue ≠ [] ∨ st1.closeQueue = true then
      (s.set i st1).schedule i
    else
      s.set i { st1 with running := false }
  else s.set i st1

/-- Mirror of the `if (cts && _upstream) _upstream->cts();` call site: deliver
a clear-to-send token on the upstream edge of stage `i` (and count it on the
receiving stage's ghost counter). -/
def Sys.ctsUp (s : Sys) (i : Nat) : Sys :=
  match (s.get i).upstream with
  | none => s
  | some u =>
    let su := s.get u
    let s1 := s.set u { su with ctsInFromDown := su.ctsInFromDown + 1 }
    s1.cts u

/-- Mirror of `process_close(_process)`: the hook really runs only when the
user type has a `close()` member; record it on the ghost logs. -/
def Sys.procCloseAt (s : Sys) (i : Nat) : Sys :=
  let st := s.get i
  if st.kind.hasCloseHook then
    { s.set i { st with closeCount := st.closeCount + 1 } with
      closeLog := s.closeLog ++ [i] }
  else s

/-- Mirror of `_process.await(v)` for the buffering (`function_process`-like)
kind: store the argument; also log consumption. -/
def Sys.procAwait (s : Sys) (i : Nat) (m : Int) : Sys :=
  let st := s.get i
  match st.kind with
  | .fnK f hc _ =>
    s.set i { st with kind := .fnK f hc (some m), consumed := st.consumed ++ [m] }
  | .mapK _ _ => s

/-- Mirror of `shared_process::task_done`: reschedule when the queue is
non-empty or a close is pending, capture `final`, and on final clear the
downstream list, which destroys the held senders and so delivers
`remove_sender` to each downstream stage.  The ghost flag records whether
the contract assertion `!(do_run && do_final)` would have fired. -/
def Sys.taskDone (s : Sys) (i : Nat) : Sys :=
  let st := s.get i
  let doRun := !st.queue.isEmpty || st.closeQueue
  let doFinal := st.final
  let s1 := s.set i { st with running := doRun }
  let s2 := { s1 with assertViolated := s1.assertViolated || (doRun && doFinal) }
  let s3 := if doRun then s2.schedule i else s2
  if doFinal then
    let ds := (s3.get i).downstream
    let s4 := s3.set i { s3.get i with downstream := [] }
    ds.foldl (fun acc j => acc.removeSender j) s4
  else s3

/-- Mirror of the free function `for_each_n(p, n, f)`: the list of elements
the loop visits, in order, starting at the first element. -/
def forEachN {α : Type} : List α → Nat → List α
  | _, 0 => []
  | [], _ + 1 => []
  | x :: xs, n + 1 => x :: forEachN xs n

/-- Mirror of `shared_process::broadcast`: snapshot the downstream size `n`,
check the contract assertion `_process_suspend_count == 0 &&
"broadcasting while suspended"` (recorded on the ghost violation flag), set
`suspend_count := n + 1`, then invoke the first `n` downstream senders in
list order with the result. -/
def Sys.broadcast (s : Sys) (i : Nat) (r : Int) : Sys :=
  let st := s.get i
  let n := st.downstream.length
  let s0 := { s with assertViolated := s.assertViolated || !(st.suspendCount == 0) }
  let st1 := { st with suspendCount := n + 1, sentOut := st.sentOut ++ [r] }
  let s1 := s0.set i st1
  (forEachN st.downstream n).foldl (fun acc j => acc.sendTo j r) s1

/-- Mirror of the `!has_process_yield` variant of `shared_process::step`:
dequeue at most one message under the lock (transferring `close_queue` to
`final` when the queue is empty), deliver the upstream cts when the queue
drained, then either invoke the process on the message, broadcast and cts,
or go to task_done.  Note the source never calls `process_close` on this
path. -/
def Sys.stepB (s : Sys) (i : Nat) (f : Int → Int) : Sys :=
  let st := s.get i
  match st.queue with
  | [] =>
    let doClose := st.closeQueue
    let st1 := { st with closeQueue := false, final := doClose }
    let s1 := s.set i st1
    s1.taskDone i
  | m :: rest =>
    let doCts := rest.isEmpty
    let st1 := { st with queue := rest, consumed := st.consumed ++ [m] }
    let s1 := s.set i st1
    let s2 := if doCts then s1.ctsUp i else s1
    let s3 := s2.broadcast i (f m)
    s3.cts i

/-- Mirror of `shared_process::dequeue`: pop one message if present (sending
the upstream cts when the queue drained) and feed it to `_process.await`;
on an empty queue transfer `close_queue` into `final` and invoke the user
close hook.  Returns whether a message was consumed. -/
def Sys.dequeue (s : Sys) (i : Nat) : Sys × Bool :=
  let st := s.get i
  match st.queue with
  | [] =>
    let doClose := st.closeQueue
    let st1 := { st with closeQueue := false, final := doClose }
    let s1 := s.set i st1
    let s2 := if doClose then s1.procCloseAt i else s1
    (s2, false)
  | m :: rest =>
    let doCts := rest.isEmpty
    let st1 := { st with queue := rest }
    let s1 := s.set i st1
    let s2 := if doCts then s1.ctsUp i else s1
    (s2.procAwait i m, true)

/-- The dequeue loop of the `has_process_yield` step variant:
`while (state != yield) { if (!dequeue()) break; }`, with fuel (each
successful dequeue strictly shrinks the queue, so `queue.length + 1` fuel
always completes the loop). -/
def Sys.stepALoop (i : Nat) : Nat → Sys → Sys
  | 0, s => s
  | fuel + 1, s =>
    if (s.get i).kind.procState = PState.yield then s
    else
      let p := s.dequeue i
      if p.2 then Sys.stepALoop i fuel p.1 else p.1

/-- Mirror of the `has_process_yield` variant of `shared_process::step`:
run the dequeue loop, then go to task_done when the process state is `await`,
otherwise broadcast `_process.yield()` and cts. -/
def Sys.stepA (s : Sys) (i : Nat) : Sys :=
  let s1 := Sys.stepALoop i ((s.get i).queue.length + 1) s
  if (s1.get i).kind.procState = PState.await then s1.taskDone i
  else
    match (s1.get i).kind with
    | .fnK f hc bound =>
      let r := f (bound.getD 0)
      let s2 := s1.set i { s1.get i with kind := .fnK f hc none }
      let s3 := s2.broadcast i r
      s3.cts i
    | .mapK _ _ => s1

/-- Dispatch the step variant chosen statically by `has_process_yield`. -/
def Sys.stepTask (s : Sys) (i : Nat) : Sys :=
  match (s.get i).kind with
  | .mapK f _ => s.stepB i f
  | .fnK _ _ _ => s.stepA i

/-- Run the executor: pop the most recent task and execute its whole step,
`fuel` times or until the task stack is empty. -/
def Sys.drain : Nat → Sys → Sys
  | 0, s => s
  | fuel + 1, s =>
    match s.tasks with
    | [] => s
    | i :: ts => Sys.drain fuel (Sys.stepTask { s with tasks := ts } i)

end StlabChannel

namespace StlabChannel

/-- Identity process kind: what `channel<T>()` installs at the head. -/
def idK : ProcKind := ProcKind.mapK (fun x => x) false

/-- Upstream back pointer of stage `i` in a linear pipeline. -/
def upAt (i : Nat) : Option Nat := if i = 0 then none else some (i - 1)

/-- Downstream sender list of stage `i` in a linear pipeline of `n` stages. -/
def downAt (n i : Nat) : List Nat := if i + 1 = n then [] else [i + 1]

/-- Freshly constructed stage `i` of a linear pipeline: `sender_count = 1`
(the producer's handle for the head, the upstream downstream-list sender for
the rest), `receiver_count = 0` (every receiver handle already released by
`set_ready` or destruction, the precondition for the pipeline to run). -/
def baseStage (ks : List ProcKind) (i : Nat) : Stage :=
  { kind := ks.getD i idK, queue := [], running := false, suspendCount := 0,
    closeQueue := false, final := false, senderCount := 1, receiverCount := 0,
    upstream := upAt i, downstream := downAt ks.length i,
    consumed := [], sentOut := [], ctsInFromDown := 0, closeCount := 0 }

/-- A linear pipeline built by `channel` plus `operator|` composition, with
all receiver handles released: one stage per element of `ks`, wired
head-to-tail, nothing queued, nothing scheduled. -/
def mkPipeline (ks : List ProcKind) : Sys :=
  { stages := baseStage ks, tasks := [], closeLog := [], assertViolated := false }

/-- The value stage `i` consumes when the producer sends `v`:
the composition of the process functions of stages `0 .. i-1`. -/
def valAt (ks : List ProcKind) : Nat → Int → Int
  | 0, v => v
  | i + 1, v => (ks.getD i idK).fn (valAt ks i v)

/-- Whole scenario driven by one producer: send every input into the head in
order, drop the sender handle, then let the executor run to quiescence. -/
def runPipeline (ks : List ProcKind) (inputs : List Int) : Sys :=
  let s0 := mkPipeline ks
  let s1 := inputs.foldl (fun acc v => acc.sendTo 0 v) s0
  let s2 := s1.removeSender 0
  s2.drain (ks.length * inputs.length + ks.length + 1)

/-! Canonical mid-run configurations.  `done` is the list of producer values
already fully processed by every stage, `pending` the values still queued at
the head.  Stage `i` has consumed `done.map (valAt ks i)` and broadcast
`done.map (valAt ks (i+1))`; its upstream-edge cts counter is `done.length`
for every stage that has a downstream neighbour, `0` for the tail stage. -/

/-- Upstream-edge cts tokens stage `i` has received after `m` values passed
every stage: one per value from its downstream neighbour, if it has one. -/
def ctsInAt (n i m : Nat) : Nat := if i + 1 = n then 0 else m

/-- Stage not currently touched by a message: idle, empty, with the ghost
logs of `done` fully-processed values. -/
def idleStage (ks : List ProcKind) (done : List Int) (i : Nat) : Stage :=
  { kind := ks.getD i idK, queue := [], running := false, suspendCount := 0,
    closeQueue := false, final := false, senderCount := 1, receiverCount := 0,
    upstream := upAt i, downstream := downAt ks.length i,
    consumed := done.map (valAt ks i), sentOut := done.map (valAt ks (i + 1)),
    ctsInFromDown := ctsInAt ks.length i done.length, closeCount := 0 }

/-- The head at the start of a head step: producer gone (`sender_count = 0`,
`close_queue` set), the step scheduled, `pending` still queued. -/
def headCycStage (ks : List ProcKind) (pending done : List Int) : Stage :=
  { kind := ks.getD 0 idK, queue := pending, running := true, suspendCount := 0,
    closeQueue := true, final := false, senderCount := 0, receiverCount := 0,
    upstream := none, downstream := downAt ks.length 0,
    consumed := done.map (valAt ks 0), sentOut := done.map (valAt ks 1),
    ctsInFromDown := ctsInAt ks.length 0 done.length, closeCount := 0 }

/-- Start of a head cycle: the head is scheduled with `pending` queued, every
other stage idle after `done` values. -/
def cycSys (ks : List ProcKind) (pending done : List Int) : Sys :=
  { stages := fun i =>
      if i = 0 then headCycStage ks pending done
      else if i < ks.length then idleStage ks done i
      else baseStage ks i,
    tasks := [0], closeLog := [], assertViolated := false }

/-- The head while value `v` is descending the pipeline: it has consumed `v`;
until stage 1 drains its queue (`j = 1`) the head still owes one suspend
count and has not yet received the cts for `v`. -/
def headDescStage (ks : List ProcKind) (j : Nat) (pending done : List Int)
    (v : Int) : Stage :=
  { kind := ks.getD 0 idK, queue := pending, running := true,
    suspendCount := if j = 1 then 1 else 0,
    closeQueue := true, final := false, senderCount := 0, receiverCount := 0,
    upstream := none, downstream := downAt ks.length 0,
    consumed := (done ++ [v]).map (valAt ks 0),
    sentOut := (done ++ [v]).map (valAt ks 1),
    ctsInFromDown := if j = 1 then done.length else done.length + 1,
    closeCount := 0 }

/-- Stage `v` already passed through (`1 ≤ i < j - 1`): idle again, ghost
logs extended by `v`, cts for `v` already received from downstream. -/
def passedStage (ks : List ProcKind) (done : List Int) (v : Int) (i : Nat) :
    Stage :=
  { kind := ks.getD i idK, queue := [], running := false, suspendCount := 0,
    closeQueue := false, final := false, senderCount := 1, receiverCount := 0,
    upstream := upAt i, downstream := downAt ks.length i,
    consumed := (done ++ [v]).map (valAt ks i),
    sentOut := (done ++ [v]).map (valAt ks (i + 1)),
    ctsInFromDown := done.length + 1, closeCount := 0 }

/-- Stage `j - 1` while stage `j` holds the message: it broadcast `v` to
stage `j`, self-delivered one cts, and still awaits stage `j`'s cts. -/
def hotStage (ks : List ProcKind) (done : List Int) (v : Int) (i : Nat) :
    Stage :=
  { kind := ks.getD i idK, queue := [], running := true, suspendCount := 1,
    closeQueue := false, final := false, senderCount := 1, receiverCount := 0,
    upstream := upAt i, downstream := downAt ks.length i,
    consumed := (done ++ [v]).map (valAt ks i),
    sentOut := (done ++ [v]).map (valAt ks (i + 1)),
    ctsInFromDown := done.length, closeCount := 0 }

/-- Stage `j`, scheduled with the descending value in its queue. -/
def carrierStage (ks : List ProcKind) (done : List Int) (v : Int) (i : Nat) :
    Stage :=
  { kind := ks.getD i idK, queue := [valAt ks i v], running := true,
    suspendCount := 0, closeQueue := false, final := false, senderCount := 1,
    receiverCount := 0, upstream := upAt i, downstream := downAt ks.length i,
    consumed := done.map (valAt ks i), sentOut := done.map (valAt ks (i + 1)),
    ctsInFromDown := ctsInAt ks.length i done.length, closeCount := 0 }

/-- Mid-cycle configuration, `1 ≤ j < ks.length`: value `v` sits queued at
stage `j`, stages before it have already processed it, stages after it have
not, and the head sits at the bottom of the task stack once stage 1 has
released it (`j ≥ 2`). -/
def descSys (ks : List ProcKind) (j : Nat) (pending done : List Int)
    (v : Int) : Sys :=
  { stages := fun i =>
      if i = 0 then headDescStage ks j pending done v
      else if i = j then carrierStage ks done v i
      else if i + 1 = j then hotStage ks done v i
      else if i < j then passedStage ks done v i
      else if i < ks.length then idleStage ks done i
      else baseStage ks i,
    tasks := if j = 1 then [1] else [j, 0], closeLog := [],
    assertViolated := false }

/-- Stage already torn down during the close cascade: `final` applied, the
downstream list cleared, the close hook fired iff the process has both a
`yield` and a `close` member. -/
def finalStage (ks : List ProcKind) (inputs : List Int) (i : Nat) : Stage :=
  { kind := ks.getD i idK, queue := [], running := false, suspendCount := 0,
    closeQueue := false, final := true, senderCount := 0, receiverCount := 0,
    upstream := upAt i, downstream := [],
    consumed := inputs.map (valAt ks i), sentOut := inputs.map (valAt ks (i + 1)),
    ctsInFromDown := ctsInAt ks.length i inputs.length,
    closeCount := if (ks.getD i idK).isYieldWithClose then 1 else 0 }

/-- The stage the close cascade is currently visiting: its upstream teardown
dropped the last sender, so `close_queue` is set and a step is scheduled. -/
def closerStage (ks : List ProcKind) (inputs : List Int) (i : Nat) : Stage :=
  { kind := ks.getD i idK, queue := [], running := true, suspendCount := 0,
    closeQueue := true, final := false, senderCount := 0, receiverCount := 0,
    upstream := upAt i, downstream := downAt ks.length i,
    consumed := inputs.map (valAt ks i), sentOut := inputs.map (valAt ks (i + 1)),
    ctsInFromDown := ctsInAt ks.length i inputs.length, closeCount := 0 }

/-- Close-cascade configuration: stages `< j` are final, stage `j` is
scheduled to apply its close, stages `> j` still idle. -/
def finSys (ks : List ProcKind) (inputs : List Int) (j : Nat) : Sys :=
  { stages := fun i =>
      if i < j then finalStage ks inputs i
      else if i = j then closerStage ks inputs j
      else if i < ks.length then idleStage ks inputs i
      else baseStage ks i,
    tasks := [j],
    closeLog := (List.range j).filter (fun i => (ks.getD i idK).isYieldWithClose),
    assertViolated := false }

/-- Quiescent final state: everything final and drained, the close hooks
fired exactly for the yield-with-close stages, in stage order. -/
def doneSys (ks : List ProcKind) (inputs : List Int) : Sys :=
  { stages := fun i =>
      if i < ks.length then finalStage ks inputs i else baseStage ks i,
    tasks := [],
    closeLog :=
      (List.range ks.length).filter (fun i => (ks.getD i idK).isYieldWithClose),
    assertViolated := false }

/-- All process kinds in their idle shape (nothing buffered mid-step). -/
def wfKinds (ks : List ProcKind) : Bool := ks.all ProcKind.isIdle


/-- The head while the producer is still sending: inputs `q` queued, a step
scheduled, every other stage untouched. -/
def sendingSys (ks : List ProcKind) (q : List Int) : Sys :=
  { stages := fun i =>
      if i = 0 then { baseStage ks 0 with queue := q, running := true }
      else baseStage ks i,
    tasks := [0], closeLog := [], assertViolated := false }

/-- A `receiver<T>` value handle: the stage index of the shared process it is
bound to (the `_p` pointer, assumed non-null as in all composed pipelines) and
its `_ready` flag. -/
structure RecvHandle where
  proc : Nat
  ready : Bool

/-- Mirror of `channel<T>()`'s freshly constructed head
`shared_process<identity, T>`: the constructor sets `_sender_count = 1` and
`_receiver_count = 1` (non-void result), everything else empty. -/
def channelStage : Stage :=
  { kind := idK, queue := [], running := false, suspendCount := 0,
    closeQueue := false, final := false, senderCount := 1, receiverCount := 1,
    upstream := none, downstream := [], consumed := [], sentOut := [],
    ctsInFromDown := 0, closeCount := 0 }

/-- A system holding just the head returned by `channel<T>()` at index 0 (the
stage map is constant as only index 0 is ever dereferenced before further
allocation). -/
def channelSys : Sys :=
  { stages := fun _ => channelStage, tasks := [], closeLog := [],
    assertViolated := false }

/-- Mirror of the `shared_process(F&&, shared_ptr<shared_process_receiver>)`
constructor used by `operator|`: fresh stage with `upstream` set to the
composed-from process, `_sender_count = 1`, `_receiver_count = 1`. -/
def composedStage (i : Nat) (k : ProcKind) : Stage :=
  { kind := k, queue := [], running := false, suspendCount := 0,
    closeQueue := false, final := false, senderCount := 1, receiverCount := 1,
    upstream := some i, downstream := [], consumed := [], sentOut := [],
    ctsInFromDown := 0, closeCount := 0 }

/-- Mirror of `receiver::set_ready`: `if (!_ready && _p) _p->remove_receiver();
_ready = true;`. -/
def setReady (s : Sys) (r : RecvHandle) : Sys × RecvHandle :=
  let s1 := if r.ready = false then s.removeReceiver r.proc else s
  (s1, { r with ready := true })

/-- Mirror of `receiver::operator|`: allocate the new downstream process (at
the fresh index `j`) with `_p` as its upstream, append a sender for it to
`_p`'s downstream list via `map`, and return a receiver handle for the new
process.  The method is `const`: the current handle (and in the source, its
`_ready` flag and the current process's `receiver_count`) is left untouched. -/
def composeOp (s : Sys) (r : RecvHandle) (j : Nat) (k : ProcKind) :
    Sys × RecvHandle :=
  let s1 := s.set j (composedStage r.proc k)
  let su := s1.get r.proc
  let s2 := s1.set r.proc { su with downstream := su.downstream ++ [j] }
  (s2, { proc := j, ready := false })

/-- Mirror of `receiver::receiver(const receiver&)` as written: the body is
`_p(x._p)` followed by `if (_p) _p->add_sender();` — it bumps the sender
count, not the receiver count, and the copy's `_ready` stays at its member
initializer `false` (see C3: `shared_process_receiver` declares no
`add_sender`, so this line cannot even compile; this models the call as
resolved against `shared_process`, which is the only implementer). -/
def receiverCopy (s : Sys) (r : RecvHandle) : Sys × RecvHandle :=
  (s.addSender r.proc, { proc := r.proc, ready := false })

/-- Mirror of `receiver::~receiver`:
`if (!_ready && _p) _p->remove_receiver();`. -/
def receiverDrop (s : Sys) (r : RecvHandle) : Sys :=
  if r.ready = false then s.removeReceiver r.proc else s

/-- A `sender<T>` value handle: `_p` is a `weak_ptr`; `none` mirrors an
expired or reset weak reference (the shared process already destroyed). -/
structure SendHandle where
  proc : Option Nat

/-- Mirror of `sender::operator()`:
`auto p = _p.lock(); if (p) p->send(args...);`. -/
def senderCall (s : Sys) (h : SendHandle) (v : Int) : Sys :=
  match h.proc with
  | none => s
  | some i => s.sendTo i v

/-- Mirror of `sender::close`:
`auto p = _p.lock(); if (p) p->remove_sender(); _p.reset();`. -/
def senderClose (s : Sys) (h : SendHandle) : Sys × SendHandle :=
  match h.proc with
  | none => (s, ⟨none⟩)
  | some i => (s.removeSender i, ⟨none⟩)

/-- Mirror of the task body submitted by `shared_process::run`:
`[_p = make_weak_ptr(...)]{ auto p = _p.lock(); if (p) p->step<T>(); }` —
`none` is the weak pointer found expired when the executor runs the task. -/
def runTask (s : Sys) (h : Option Nat) : Sys :=
  match h with
  | none => s
  | some i => s.stepTask i


/-- One stage of the `has_process_yield` path over an abstract user process
whose `state()` may report any of the three `process_state` values (the
`function_process` shape never reports `await_try`; this model covers the
general `T`).  `onAwait` is the state transition of `_process.await(m)`,
`yieldVal`/`afterYield` the value and state transition of `_process.yield()`,
`nDown` the downstream size seen by `broadcast`.  `upstreamCts`, `broadcasts`,
`taskDoneRuns`, `closeRuns` and `scheduled` are ghost observation counters. -/
structure YStage where
  pstate : PState
  onAwait : Int → PState
  yieldVal : Int
  afterYield : PState
  hasClose : Bool
  queue : List Int
  running : Bool
  suspendCount : Nat
  closeQueue : Bool
  final : Bool
  nDown : Nat
  upstreamCts : Nat
  broadcasts : List Int
  taskDoneRuns : Nat
  closeRuns : Nat
  scheduled : Nat

/-- Mirror of `shared_process::dequeue` on this stage: pop one message if
present (upstream cts when the queue drains) and feed it to `await`; on an
empty queue transfer `close_queue` into `final` and run `process_close`
(a real hook only when the user type has `close()`). -/
def dequeueY (st : YStage) : YStage × Bool :=
  match st.queue with
  | [] =>
    let doClose := st.closeQueue
    let st1 := { st with closeQueue := false, final := doClose }
    let st2 :=
      if doClose then
        if st1.hasClose then { st1 with closeRuns := st1.closeRuns + 1 } else st1
      else st1
    (st2, false)
  | m :: rest =>
    let doCts := rest.isEmpty
    let st1 := { st with queue := rest }
    let st2 := if doCts then { st1 with upstreamCts := st1.upstreamCts + 1 } else st1
    ({ st2 with pstate := st2.onAwait m }, true)

/-- The dequeue loop `while (state != yield) { if (!dequeue()) break; }`,
with fuel (each successful dequeue shrinks the queue). -/
def stepYLoop : Nat → YStage → YStage
  | 0, st => st
  | fuel + 1, st =>
    if st.pstate = PState.yield then st
    else
      let p := dequeueY st
      if p.2 then stepYLoop fuel p.1 else p.1

/-- Mirror of `shared_process::task_done` on this stage: reschedule when the
queue is non-empty or a close is pending; on captured `final` clear the
downstream list. -/
def taskDoneY (st : YStage) : YStage :=
  let doRun := !st.queue.isEmpty || st.closeQueue
  let doFinal := st.final
  let st1 := { st with running := doRun, taskDoneRuns := st.taskDoneRuns + 1 }
  let st2 := if doRun then { st1 with scheduled := st1.scheduled + 1 } else st1
  if doFinal then { st2 with nDown := 0 } else st2

/-- Mirror of `shared_process::broadcast` on this stage: snapshot the
downstream size, set `suspend_count := n + 1`, log the value sent. -/
def broadcastY (st : YStage) (r : Int) : YStage :=
  { st with suspendCount := st.nDown + 1, broadcasts := st.broadcasts ++ [r] }

/-- Mirror of `shared_process::cts` on this stage. -/
def ctsY (st : YStage) : YStage :=
  let st1 := { st with suspendCount := st.suspendCount - 1 }
  if st1.suspendCount = 0 then
    if st1.pstate = PState.yield ∨ st1.queue ≠ [] ∨ st1.closeQueue = true then
      { st1 with scheduled := st1.scheduled + 1 }
    else { st1 with running := false }
  else st1

/-- Mirror of the `has_process_yield` variant of `shared_process::step`:
run the dequeue loop; transition to `task_done` exactly when the process
state is `await`, otherwise `broadcast(_process.yield())` then `cts()`. -/
def stepY (st : YStage) : YStage :=
  let s1 := stepYLoop (st.queue.length + 1) st
  if s1.pstate = PState.await then taskDoneY s1
  else
    let s2 := { s1 with pstate := s1.afterYield }
    ctsY (broadcastY s2 s1.yieldVal)

/-- A stage mid-broadcast-acknowledgement: `suspend_count = 1`, one pending
close, used to witness the `cts` zero-transition behavior. -/
def ctsDemoSys : Sys :=
  { stages := fun _ =>
      { channelStage with suspendCount := 1, running := true, closeQueue := true },
    tasks := [], closeLog := [], assertViolated := false }

/-- A drained `has_process_yield` stage whose process reports `await_try`,
used to witness the C10 behavior. -/
def yDemo : YStage :=
  { pstate := PState.await_try, onAwait := fun _ => PState.await,
    yieldVal := 5, afterYield := PState.await, hasClose := false,
    queue := [], running := true, suspendCount := 0, closeQueue := false,
    final := false, nDown := 0, upstreamCts := 0, broadcasts := [],
    taskDoneRuns := 0, closeRuns := 0, scheduled := 0 }

/-- A buffering process (`function_process` shape) whose user type also has a
`close()` member. -/
def yclose : ProcKind := ProcKind.fnK (fun x => x) true none

/-- Witness pipeline for the close-hook run: identity head, then a
yield-with-close stage. -/
def ksWit : List ProcKind := [idK, yclose]


end StlabChannel

namespace StlabChannel

@[simp]
theorem Sys.get_set (s : Sys) (i : Nat) (st : Stage) (j : Nat) :
    (s.set i st).get j = if j = i then st else s.get j := by
  simp only [Sys.get, Sys.set]

@[simp]
theorem Sys.tasks_set (s : Sys) (i : Nat) (st : Stage) :
    (s.set i st).tasks = s.tasks := rfl

@[simp]
theorem Sys.closeLog_set (s : Sys) (i : Nat) (st : Stage) :
    (s.set i st).closeLog = s.closeLog := rfl

@[simp]
theorem Sys.assertViolated_set (s : Sys) (i : Nat) (st : Stage) :
    (s.set i st).assertViolated = s.assertViolated := rfl

@[simp]
theorem Sys.get_schedule (s : Sys) (i j : Nat) :
    (s.schedule i).get j = s.get j := rfl

@[simp]
theorem Sys.tasks_schedule (s : Sys) (i : Nat) :
    (s.schedule i).tasks = i :: s.tasks := rfl

@[simp]
theorem Sys.closeLog_schedule (s : Sys) (i : Nat) :
    (s.schedule i).closeLog = s.closeLog := rfl

@[simp]
theorem Sys.assertViolated_schedule (s : Sys) (i : Nat) :
    (s.schedule i).assertViolated = s.assertViolated := rfl

theorem Sys.drain_nil (n : Nat) (s : Sys) (h : s.tasks = []) :
    Sys.drain n s = s := by
  cases n with
  | zero => rfl
  | succ m => simp only [Sys.drain, h]

theorem Sys.drain_cons (n : Nat) (s : Sys) (i : Nat) (ts : List Nat)
    (h : s.tasks = i :: ts) :
    Sys.drain (n + 1) s = Sys.drain n (Sys.stepTask { s with tasks := ts } i) := by
  simp only [Sys.drain, h]

theorem Sys.drain_add (a b : Nat) (s : Sys) :
    Sys.drain (a + b) s = Sys.drain b (Sys.drain a s) := by
  induction a generalizing s with
  | zero => simp [Sys.drain]
  | succ m ih =>
    cases h : s.tasks with
    | nil =>
      rw [Sys.drain_nil (m + 1) s h, Sys.drain_nil (m + 1 + b) s h,
        Sys.drain_nil b s h]
    | cons i ts =>
      have : m + 1 + b = (m + b) + 1 := by omega
      rw [this, Sys.drain_cons (m + b) s i ts h, Sys.drain_cons m s i ts h, ih]

theorem wf_idle (ks : List ProcKind) (hwf : wfKinds ks = true) (i : Nat)
    (hi : i < ks.length) : (ks.getD i idK).isIdle = true := by
  have hmem : ks.getD i idK ∈ ks := by
    rw [List.getD_eq_getElem ks idK hi]
    exact List.getElem_mem hi
  exact List.all_eq_true.mp hwf _ hmem

/-- Shape of an idle process kind: either the no-yield fast-path kind or the
buffering kind with nothing stored. -/
theorem idle_shape (k : ProcKind) (h : k.isIdle = true) :
    (∃ f hc, k = ProcKind.mapK f hc) ∨ (∃ f hc, k = ProcKind.fnK f hc none) := by
  cases k with
  | mapK f hc => exact Or.inl ⟨f, hc, rfl⟩
  | fnK f hc b =>
    cases b with
    | none => exact Or.inr ⟨f, hc, rfl⟩
    | some m => simp [ProcKind.isIdle] at h

@[simp]
theorem map_valAt_zero (ks : List ProcKind) (l : List Int) :
    l.map (valAt ks 0) = l := by
  induction l with
  | nil => rfl
  | cons x xs ih => simp [valAt, ih]

end StlabChannel

namespace StlabChannel

theorem idle_procState (k : ProcKind) (h : k.isIdle = true) :
    k.procState = PState.await := by
  cases k with
  | mapK f hc => rfl
  | fnK f hc b => cases b with
    | none => rfl
    | some m => simp [ProcKind.isIdle] at h

@[simp]
theorem Sys.get_mk (f : Nat → Stage) (ts log : List Nat) (b : Bool) (j : Nat) :
    (Sys.mk f ts log b).get j = f j := rfl

@[simp]
theorem Sys.stages_apply (s : Sys) (j : Nat) : s.stages j = s.get j := rfl

theorem Sys.set_set (s : Sys) (i : Nat) (a b : Stage) :
    (s.set i a).set i b = s.set i b := by
  ext1
  all_goals try rfl
  funext j
  by_cases h : j = i <;> simp [h]

@[simp]
theorem Sys.mk_set_collapse (s : Sys) (i : Nat) (st : Stage) :
    (Sys.mk (s.set i st).stages s.tasks s.closeLog s.assertViolated) =
      s.set i st := rfl


theorem step_consume_head (s : Sys) (j d : Nat) (hdj : d ≠ j)
    (k : ProcKind) (hki : k.isIdle = true) (v : Int) (vs : List Int)
    (cq : Bool) (sc : Nat) (cs so : List Int) (ci : Nat) (D : Stage)
    (hgj : s.get j = { kind := k, queue := v :: vs, running := true,
                       suspendCount := 0, closeQueue := cq, final := false,
                       senderCount := sc, receiverCount := 0, upstream := none,
                       downstream := [d], consumed := cs, sentOut := so,
                       ctsInFromDown := ci, closeCount := 0 })
    (hgd : s.get d = D) (hDrc : D.receiverCount = 0) (hDrun : D.running = false) :
    Sys.stepTask s j =
      ((s.set j { kind := k, queue := vs, running := true, suspendCount := 1,
                  closeQueue := cq, final := false, senderCount := sc,
                  receiverCount := 0, upstream := none, downstream := [d],
                  consumed := cs ++ [v], sentOut := so ++ [k.fn v],
                  ctsInFromDown := ci, closeCount := 0 }).set d
        { D with queue := D.queue ++ [k.fn v], running := true }).schedule d := by
  rcases idle_shape k hki with ⟨f, hc, hk⟩ | ⟨f, hc, hk⟩
  all_goals subst hk
  all_goals
    simp [Sys.stepTask, Sys.stepB, Sys.stepA, Sys.stepALoop, Sys.dequeue,
      Sys.procAwait, Sys.ctsUp, Sys.cts, Sys.broadcast, forEachN, Sys.sendTo,
      Sys.schedule, ProcKind.procState, ProcKind.fn,
      hgj, hgd, hDrc, hDrun, hdj, Ne.symm hdj, Sys.set_set]
  all_goals
    ext1
    all_goals try rfl
    all_goals funext i
    all_goals
      rcases eq_or_ne i d with rfl | hid
      · simp [Sys.set, hdj]
      · rcases eq_or_ne i j with rfl | hij
        · simp [hid]
        · simp [hid, hij]

end StlabChannel

namespace StlabChannel

theorem step_consume_head_nodown (s : Sys) (j : Nat)
    (k : ProcKind) (hki : k.isIdle = true) (v : Int) (vs : List Int)
    (sc : Nat) (cs so : List Int) (ci : Nat)
    (hgj : s.get j = { kind := k, queue := v :: vs, running := true,
                       suspendCount := 0, closeQueue := true, final := false,
                       senderCount := sc, receiverCount := 0, upstream := none,
                       downstream := [], consumed := cs, sentOut := so,
                       ctsInFromDown := ci, closeCount := 0 }) :
    Sys.stepTask s j =
      (s.set j { kind := k, queue := vs, running := true, suspendCount := 0,
                 closeQueue := true, final := false, senderCount := sc,
                 receiverCount := 0, upstream := none, downstream := [],
                 consumed := cs ++ [v], sentOut := so ++ [k.fn v],
                 ctsInFromDown := ci, closeCount := 0 }).schedule j := by
  rcases idle_shape k hki with ⟨f, hc, hk⟩ | ⟨f, hc, hk⟩
  all_goals subst hk
  all_goals
    simp [Sys.stepTask, Sys.stepB, Sys.stepA, Sys.stepALoop, Sys.dequeue,
      Sys.procAwait, Sys.ctsUp, Sys.cts, Sys.broadcast, forEachN, Sys.sendTo,
      Sys.schedule, ProcKind.procState, ProcKind.fn, hgj, Sys.set_set]

theorem step_closer_last (s : Sys) (j : Nat)
    (k : ProcKind) (hki : k.isIdle = true)
    (u : Option Nat) (cs so : List Int) (ci : Nat)
    (hgj : s.get j = { kind := k, queue := [], running := true, suspendCount := 0,
                       closeQueue := true, final := false, senderCount := 0,
                       receiverCount := 0, upstream := u, downstream := [],
                       consumed := cs, sentOut := so, ctsInFromDown := ci,
                       closeCount := 0 }) :
    Sys.stepTask s j =
      { s.set j { kind := k, queue := [], running := false, suspendCount := 0,
                  closeQueue := false, final := true, senderCount := 0,
                  receiverCount := 0, upstream := u, downstream := [],
                  consumed := cs, sentOut := so, ctsInFromDown := ci,
                  closeCount := if k.isYieldWithClose then 1 else 0 } with
        closeLog := s.closeLog ++ (if k.isYieldWithClose then [j] else []) } := by
  rcases idle_shape k hki with ⟨f, hc, hk⟩ | ⟨f, hc, hk⟩
  all_goals subst hk
  all_goals try cases hc
  all_goals
    simp [Sys.stepTask, Sys.stepB, Sys.stepA, Sys.stepALoop, Sys.dequeue,
      Sys.procCloseAt, Sys.taskDone, Sys.removeSender, Sys.schedule,
      ProcKind.procState, ProcKind.hasCloseHook, ProcKind.isYieldWithClose,
      hgj, Sys.set_set]
  all_goals
    ext1
    all_goals try rfl
    all_goals funext i
    all_goals
      rcases eq_or_ne i j with rfl | hij
      · simp
      · simp [hij]

theorem sendTo_busy (s : Sys) (i : Nat) (v : Int) (C : Stage)
    (hgi : s.get i = C) (hrun : C.running = true) :
    s.sendTo i v = s.set i { C with queue := C.queue ++ [v] } := by
  simp [Sys.sendTo, hgi, hrun]

theorem sendTo_fresh (s : Sys) (i : Nat) (v : Int) (C : Stage)
    (hgi : s.get i = C) (hrun : C.running = false) (hrc : C.receiverCount = 0) :
    s.sendTo i v =
      (s.set i { C with queue := C.queue ++ [v], running := true }).schedule i := by
  simp [Sys.sendTo, hgi, hrun, hrc]

theorem removeSender_one_busy (s : Sys) (i : Nat) (C : Stage)
    (hgi : s.get i = C) (hsc : C.senderCount = 1) (hrun : C.running = true) :
    s.removeSender i = s.set i { C with senderCount := 0, closeQueue := true } := by
  simp [Sys.removeSender, hgi, hsc, hrun]

theorem removeSender_one_fresh (s : Sys) (i : Nat) (C : Stage)
    (hgi : s.get i = C) (hsc : C.senderCount = 1) (hrun : C.running = false)
    (hrc : C.receiverCount = 0) :
    s.removeSender i =
      (s.set i
        { C with senderCount := 0, closeQueue := true, running := true }).schedule i := by
  simp [Sys.removeSender, hgi, hsc, hrun, hrc]

end StlabChannel

namespace StlabChannel

theorem cts_get_other (s : Sys) (u i : Nat) (hiu : i ≠ u) :
    (s.cts u).get i = s.get i := by
  simp only [Sys.cts]
  split
  all_goals try split
  all_goals simp [hiu]

theorem ctsUp_get_other (s : Sys) (j u i : Nat)
    (hup : (s.get j).upstream = some u) (hiu : i ≠ u) :
    (s.ctsUp j).get i = s.get i := by
  simp only [Sys.ctsUp, hup]
  rw [cts_get_other _ _ _ hiu]
  simp [hiu]

theorem stepTask_eq_stepB (s : Sys) (j : Nat) (f : Int → Int) (hc : Bool)
    (h : (s.get j).kind = ProcKind.mapK f hc) :
    Sys.stepTask s j = s.stepB j f := by
  simp only [Sys.stepTask, h]

theorem stepTask_eq_stepA (s : Sys) (j : Nat) (f : Int → Int) (hc : Bool)
    (b : Option Int) (h : (s.get j).kind = ProcKind.fnK f hc b) :
    Sys.stepTask s j = s.stepA j := by
  simp only [Sys.stepTask, h]

theorem ctsUp_idle (s : Sys) (j u : Nat) (hup : (s.get j).upstream = some u)
    (U : Stage) (hgu : s.get u = U) (h1 : U.suspendCount = 1)
    (hq : U.queue = []) (hcq : U.closeQueue = false) (hki : U.kind.isIdle = true) :
    s.ctsUp j = s.set u
      { U with
        ctsInFromDown := U.ctsInFromDown + 1, suspendCount := 0,
        running := false } := by
  have hUst : U.kind.procState = PState.await := idle_procState _ hki
  simp [Sys.ctsUp, Sys.cts, hup, hgu, h1, hq, hcq, hUst, Sys.set_set]

theorem ctsUp_busy (s : Sys) (j u : Nat) (hup : (s.get j).upstream = some u)
    (U : Stage) (hgu : s.get u = U) (h1 : U.suspendCount = 1)
    (hcq : U.closeQueue = true) :
    s.ctsUp j =
      (s.set u
        { U with
          ctsInFromDown := U.ctsInFromDown + 1,
          suspendCount := 0 }).schedule u := by
  simp [Sys.ctsUp, Sys.cts, hup, hgu, h1, hcq, Sys.set_set]

theorem broadcast_to (s : Sys) (i d : Nat) (r : Int) (C D : Stage)
    (hgi : s.get i = C) (hds : C.downstream = [d]) (hdi : d ≠ i)
    (hgd : s.get d = D) (hDrc : D.receiverCount = 0) (hDrun : D.running = false)
    (hsus : C.suspendCount = 0) :
    s.broadcast i r =
      ((s.set i { C with suspendCount := 2, sentOut := C.sentOut ++ [r] }).set d
        { D with queue := D.queue ++ [r], running := true }).schedule d := by
  simp [Sys.broadcast, Sys.sendTo, forEachN, hgi, hds, hdi, hgd, hDrc, hDrun,
    hsus]

theorem broadcast_nil (s : Sys) (i : Nat) (r : Int) (C : Stage)
    (hgi : s.get i = C) (hds : C.downstream = []) (hsus : C.suspendCount = 0) :
    s.broadcast i r = s.set i
      { C with suspendCount := 1, sentOut := C.sentOut ++ [r] } := by
  simp [Sys.broadcast, forEachN, hgi, hds, hsus]

theorem cts_dec (s : Sys) (i : Nat) (C : Stage) (hgi : s.get i = C)
    (h2 : C.suspendCount = 2) :
    s.cts i = s.set i { C with suspendCount := 1 } := by
  simp [Sys.cts, hgi, h2]

theorem cts_zero_idle (s : Sys) (i : Nat) (C : Stage) (hgi : s.get i = C)
    (h1 : C.suspendCount = 1) (hki : C.kind.isIdle = true)
    (hq : C.queue = []) (hcq : C.closeQueue = false) :
    s.cts i = s.set i { C with suspendCount := 0, running := false } := by
  have hCst : C.kind.procState = PState.await := idle_procState _ hki
  simp [Sys.cts, hgi, h1, hq, hcq, hCst]

theorem cts_zero_run (s : Sys) (i : Nat) (C : Stage) (hgi : s.get i = C)
    (h1 : C.suspendCount = 1) (hcq : C.closeQueue = true) :
    s.cts i = (s.set i { C with suspendCount := 0 }).schedule i := by
  simp [Sys.cts, hgi, h1, hcq]

theorem stepB_pop_one (s : Sys) (j : Nat) (f : Int → Int) (C : Stage)
    (hgj : s.get j = C) (m : Int) (hq : C.queue = [m]) :
    s.stepB j f =
      (((s.set j
        { C with
          queue := [], consumed := C.consumed ++ [m] }).ctsUp j).broadcast
          j (f m)).cts j := by
  simp only [Sys.stepB, hgj, hq, List.isEmpty_nil, if_true]

theorem procCloseAt_hook (s : Sys) (j : Nat) (C : Stage) (hgj : s.get j = C)
    (hk : C.kind.hasCloseHook = true) :
    s.procCloseAt j =
      { s.set j { C with closeCount := C.closeCount + 1 } with
        closeLog := s.closeLog ++ [j] } := by
  simp [Sys.procCloseAt, hgj, hk]

theorem procCloseAt_nohook (s : Sys) (j : Nat) (C : Stage) (hgj : s.get j = C)
    (hk : C.kind.hasCloseHook = false) :
    s.procCloseAt j = s := by
  simp [Sys.procCloseAt, hgj, hk]

end StlabChannel

namespace StlabChannel

theorem stepB_close (s : Sys) (j : Nat) (f : Int → Int) (C : Stage)
    (hgj : s.get j = C) (hq : C.queue = []) :
    s.stepB j f =
      (s.set j { C with closeQueue := false, final := C.closeQueue }).taskDone j := by
  simp only [Sys.stepB, hgj, hq]

theorem stepA_close (s : Sys) (j : Nat) (f : Int → Int) (hc : Bool) (C : Stage)
    (hgj : s.get j = C) (hq : C.queue = []) (hk : C.kind = ProcKind.fnK f hc none)
    (hcq : C.closeQueue = true) :
    s.stepA j =
      ((s.set j { C with closeQueue := false, final := true }).procCloseAt
        j).taskDone j := by
  cases hc with
  | false =>
    simp [Sys.stepA, Sys.stepALoop, Sys.dequeue, Sys.procCloseAt,
      ProcKind.procState, ProcKind.hasCloseHook, hgj, hq, hk, hcq]
  | true =>
    simp [Sys.stepA, Sys.stepALoop, Sys.dequeue, Sys.procCloseAt,
      ProcKind.procState, ProcKind.hasCloseHook, hgj, hq, hk, hcq]

theorem Sys.ext_pt (s t : Sys) (h : ∀ i, s.get i = t.get i)
    (h2 : s.tasks = t.tasks) (h3 : s.closeLog = t.closeLog)
    (h4 : s.assertViolated = t.assertViolated) : s = t := by
  cases s
  cases t
  congr 1
  exact funext h

theorem taskDone_final_kick (s : Sys) (j d : Nat) (hdj : d ≠ j) (C D : Stage)
    (hgj : s.get j = C) (hq : C.queue = []) (hcq : C.closeQueue = false)
    (hfin : C.final = true) (hds : C.downstream = [d])
    (hgd : s.get d = D) (hDsc : D.senderCount = 1) (hDrc : D.receiverCount = 0)
    (hDrun : D.running = false) :
    s.taskDone j =
      ((s.set j { C with running := false, downstream := [] }).set d
        { D with senderCount := 0, closeQueue := true, running := true }).schedule d := by
  simp [Sys.taskDone, Sys.removeSender, Sys.schedule, hgj, hq, hcq, hfin, hds,
    hgd, hDsc, hDrc, hDrun, hdj, Ne.symm hdj, Sys.set_set]

theorem taskDone_final_nokick (s : Sys) (j : Nat) (C : Stage)
    (hgj : s.get j = C) (hq : C.queue = []) (hcq : C.closeQueue = false)
    (hfin : C.final = true) (hds : C.downstream = []) :
    s.taskDone j = s.set j { C with running := false, downstream := [] } := by
  simp [Sys.taskDone, hgj, hq, hcq, hfin, hds, Sys.set_set]

theorem stepA_pop_one (s : Sys) (j u : Nat) (f : Int → Int) (hc : Bool)
    (C : Stage) (hgj : s.get j = C) (m : Int) (hq : C.queue = [m])
    (hk : C.kind = ProcKind.fnK f hc none) (hup : C.upstream = some u)
    (huj : u ≠ j) :
    s.stepA j =
      ((((s.set j
        { C with
          kind := ProcKind.fnK f hc none, queue := [] }).ctsUp j).set j
        { C with
          kind := ProcKind.fnK f hc none, queue := [],
          consumed := C.consumed ++ [m] }).broadcast j (f m)).cts j := by
  have hj1 : ((s.set j
      { C with
        kind := ProcKind.fnK f hc none, queue := [] }).get j).upstream = some u := by
    simp [hup]
  have hj2 : (((s.set j
      { C with
        kind := ProcKind.fnK f hc none, queue := [] }).ctsUp j).get j) =
      { C with kind := ProcKind.fnK f hc none, queue := [] } := by
    rw [ctsUp_get_other _ j u j hj1 (Ne.symm huj)]
    simp
  simp only [Sys.stepA, Sys.stepALoop, Sys.dequeue, Sys.procAwait, hgj, hq, hk,
    ProcKind.procState, hj2]
  simp [Sys.set_set, hj2]

end StlabChannel



namespace StlabChannel

theorem finSys_get_lt (ks : List ProcKind) (inputs : List Int) (j i : Nat)
    (h : i < j) : (finSys ks inputs j).get i = finalStage ks inputs i := by
  simp [finSys, Sys.get, h]

theorem finSys_get_self (ks : List ProcKind) (inputs : List Int) (j : Nat) :
    (finSys ks inputs j).get j = closerStage ks inputs j := by
  simp [finSys, Sys.get]

theorem finSys_get_gt (ks : List ProcKind) (inputs : List Int) (j i : Nat)
    (h1 : j < i) (h2 : i < ks.length) :
    (finSys ks inputs j).get i = idleStage ks inputs i := by
  have h3 : ¬ i < j := by omega
  have h4 : i ≠ j := by omega
  simp [finSys, Sys.get, h3, h4, h2]

theorem finSys_get_base (ks : List ProcKind) (inputs : List Int) (j i : Nat)
    (h1 : j < i) (h2 : ks.length ≤ i) :
    (finSys ks inputs j).get i = baseStage ks i := by
  have h3 : ¬ i < j := by omega
  have h4 : i ≠ j := by omega
  have h5 : ¬ i < ks.length := by omega
  simp [finSys, Sys.get, h3, h4, h5]

theorem cycSys_get_zero (ks : List ProcKind) (pending done : List Int) :
    (cycSys ks pending done).get 0 = headCycStage ks pending done := by
  simp [cycSys, Sys.get]

theorem cycSys_get_pos (ks : List ProcKind) (pending done : List Int) (i : Nat)
    (h1 : 0 < i) (h2 : i < ks.length) :
    (cycSys ks pending done).get i = idleStage ks done i := by
  have h3 : i ≠ 0 := by omega
  simp [cycSys, Sys.get, h3, h2]

theorem cycSys_get_base (ks : List ProcKind) (pending done : List Int) (i : Nat)
    (h2 : ks.length ≤ i) (h0 : 0 < i) :
    (cycSys ks pending done).get i = baseStage ks i := by
  have h3 : i ≠ 0 := by omega
  have h5 : ¬ i < ks.length := by omega
  simp [cycSys, Sys.get, h3, h5]

theorem descSys_get_zero (ks : List ProcKind) (j : Nat) (pending done : List Int)
    (v : Int) : (descSys ks j pending done v).get 0 = headDescStage ks j pending done v := by
  simp [descSys, Sys.get]

theorem descSys_get_carrier (ks : List ProcKind) (j : Nat)
    (pending done : List Int) (v : Int) (h : 1 ≤ j) :
    (descSys ks j pending done v).get j = carrierStage ks done v j := by
  have h0 : j ≠ 0 := by omega
  simp [descSys, Sys.get, h0]

theorem descSys_get_hot (ks : List ProcKind) (j : Nat)
    (pending done : List Int) (v : Int) (h : 2 ≤ j) :
    (descSys ks j pending done v).get (j - 1) = hotStage ks done v (j - 1) := by
  have h0 : j - 1 ≠ 0 := by omega
  have h1 : j - 1 ≠ j := by omega
  have h2 : j - 1 + 1 = j := by omega
  simp [descSys, Sys.get, h0, h1, h2]

theorem descSys_get_passed (ks : List ProcKind) (j : Nat)
    (pending done : List Int) (v : Int) (i : Nat) (h1 : 1 ≤ i) (h2 : i + 1 < j) :
    (descSys ks j pending done v).get i = passedStage ks done v i := by
  have h0 : i ≠ 0 := by omega
  have h3 : i ≠ j := by omega
  have h4 : i + 1 ≠ j := by omega
  have h5 : i < j := by omega
  simp [descSys, Sys.get, h0, h3, h4, h5]

theorem descSys_get_idle (ks : List ProcKind) (j : Nat)
    (pending done : List Int) (v : Int) (i : Nat) (h1 : j < i)
    (h2 : i < ks.length) :
    (descSys ks j pending done v).get i = idleStage ks done i := by
  have h0 : i ≠ 0 := by omega
  have h3 : i ≠ j := by omega
  have h4 : i + 1 ≠ j := by omega
  have h5 : ¬ i < j := by omega
  simp [descSys, Sys.get, h0, h3, h4, h5, h2]

theorem descSys_get_base (ks : List ProcKind) (j : Nat)
    (pending done : List Int) (v : Int) (i : Nat) (h1 : j < i)
    (h2 : ks.length ≤ i) :
    (descSys ks j pending done v).get i = baseStage ks i := by
  have h0 : i ≠ 0 := by omega
  have h3 : i ≠ j := by omega
  have h4 : i + 1 ≠ j := by omega
  have h5 : ¬ i < j := by omega
  have h6 : ¬ i < ks.length := by omega
  simp [descSys, Sys.get, h0, h3, h4, h5, h6]

theorem doneSys_get_lt (ks : List ProcKind) (inputs : List Int) (i : Nat)
    (h : i < ks.length) : (doneSys ks inputs).get i = finalStage ks inputs i := by
  simp [doneSys, Sys.get, h]

theorem doneSys_get_ge (ks : List ProcKind) (inputs : List Int) (i : Nat)
    (h : ks.length ≤ i) : (doneSys ks inputs).get i = baseStage ks i := by
  have h5 : ¬ i < ks.length := by omega
  simp [doneSys, Sys.get, h5]

end StlabChannel

namespace StlabChannel

theorem step_closer_mid (s : Sys) (j d : Nat) (hne : d ≠ j)
    (k : ProcKind) (hki : k.isIdle = true)
    (u : Option Nat) (cs so : List Int) (ci : Nat) (D : Stage)
    (hgj : s.get j = { kind := k, queue := [], running := true, suspendCount := 0,
                       closeQueue := true, final := false, senderCount := 0,
                       receiverCount := 0, upstream := u, downstream := [d],
                       consumed := cs, sentOut := so, ctsInFromDown := ci,
                       closeCount := 0 })
    (hgd : s.get d = D) (hDsc : D.senderCount = 1) (hDrc : D.receiverCount = 0)
    (hDrun : D.running = false) :
    Sys.stepTask s j =
      { ((s.set j { kind := k, queue := [], running := false, suspendCount := 0,
                    closeQueue := false, final := true, senderCount := 0,
                    receiverCount := 0, upstream := u, downstream := [],
                    consumed := cs, sentOut := so, ctsInFromDown := ci,
                    closeCount := if k.isYieldWithClose then 1 else 0 }).set d
          { D with senderCount := 0, closeQueue := true, running := true }).schedule d with
        closeLog := s.closeLog ++ (if k.isYieldWithClose then [j] else []) } := by
  rcases idle_shape k hki with ⟨f, hc, hk⟩ | ⟨f, hc, hk⟩
  all_goals subst hk
  all_goals try cases hc
  all_goals
    simp [Sys.stepTask, Sys.stepB, Sys.stepA, Sys.stepALoop, Sys.dequeue,
      Sys.procCloseAt, Sys.taskDone, Sys.removeSender, Sys.schedule,
      ProcKind.procState, ProcKind.hasCloseHook, ProcKind.isYieldWithClose,
      hgj, hgd, hDsc, hDrc, hDrun, hne, Ne.symm hne, Sys.set_set]
  all_goals
    funext i
    rcases eq_or_ne i d with rfl | hid
    · simp [hne]
    · rcases eq_or_ne i j with rfl | hij
      · simp [hid]
      · simp [hid, hij]

end StlabChannel

namespace StlabChannel

theorem range_succ_filter (p : Nat → Bool) (n : Nat) :
    (List.range (n + 1)).filter p =
      (List.range n).filter p ++ (if p n then [n] else []) := by
  rw [List.range_succ, List.filter_append]
  congr 1
  by_cases h : p n <;> simp [List.filter, h]

theorem stepTask_fin_mid (ks : List ProcKind) (inputs : List Int) (j : Nat)
    (hwf : wfKinds ks = true) (hj1 : j + 1 < ks.length) :
    Sys.stepTask { finSys ks inputs j with tasks := [] } j
      = finSys ks inputs (j + 1) := by
  have hjN : j < ks.length := by omega
  have hne : ¬ j + 1 = ks.length := by omega
  have hgj : ({ finSys ks inputs j with tasks := [] } : Sys).get j
      = closerStage ks inputs j := by
    simp [finSys_get_self]
  rw [step_closer_mid _ j (j + 1) (by omega) (ks.getD j idK)
    (wf_idle ks hwf j hjN)
    (upAt j) (inputs.map (valAt ks j)) (inputs.map (valAt ks (j + 1)))
    (ctsInAt ks.length j inputs.length) (idleStage ks inputs (j + 1))
    (by rw [hgj]; simp [closerStage, downAt, hne])
    (by simp [finSys_get_gt ks inputs j (j + 1) (by omega) hj1])
    (by simp [idleStage]) (by simp [idleStage]) (by simp [idleStage])]
  refine Sys.ext_pt _ _ (fun i => ?_) rfl ?_ rfl
  · by_cases hi1 : i = j + 1
    · subst hi1
      simp [finSys_get_self, idleStage, closerStage]
    · by_cases hij : i = j
      · subst hij
        simp [finalStage, finSys_get_lt ks inputs (i + 1) i (by omega)]
      · rcases Nat.lt_or_ge i ks.length with hiN | hiN
        · rcases Nat.lt_or_ge i j with hlt | hgt
          · simp [hi1, hij, finSys_get_lt ks inputs j i hlt,
              finSys_get_lt ks inputs (j + 1) i (by omega)]
          · have h2 : j + 1 < i := by omega
            simp [hi1, hij, finSys_get_gt ks inputs j i (by omega) hiN,
              finSys_get_gt ks inputs (j + 1) i h2 hiN]
        · have h2 : j + 1 < i := by omega
          simp [hi1, hij, finSys_get_base ks inputs j i (by omega) hiN,
            finSys_get_base ks inputs (j + 1) i h2 hiN]
  · simp [finSys, range_succ_filter]

end StlabChannel

namespace StlabChannel

theorem stepTask_fin_last (ks : List ProcKind) (inputs : List Int) (j : Nat)
    (hwf : wfKinds ks = true) (h0 : j + 1 = ks.length) :
    Sys.stepTask { finSys ks inputs j with tasks := [] } j
      = doneSys ks inputs := by
  have hjN : j < ks.length := by omega
  have hgj : ({ finSys ks inputs j with tasks := [] } : Sys).get j
      = closerStage ks inputs j := by
    simp [finSys_get_self]
  rw [step_closer_last _ j (ks.getD j idK) (wf_idle ks hwf j hjN)
    (upAt j) (inputs.map (valAt ks j)) (inputs.map (valAt ks (j + 1)))
    (ctsInAt ks.length j inputs.length)
    (by rw [hgj]; simp [closerStage, downAt, h0])]
  refine Sys.ext_pt _ _ (fun i => ?_) rfl ?_ rfl
  · by_cases hij : i = j
    · subst hij
      simp [doneSys_get_lt ks inputs i (by omega), finalStage]
    · rcases Nat.lt_or_ge i ks.length with hiN | hiN
      · have hlt : i < j := by omega
        simp [hij, finSys_get_lt ks inputs j i hlt, doneSys_get_lt ks inputs i hiN]
      · have hgt : j < i := by omega
        simp [hij, finSys_get_base ks inputs j i hgt hiN, doneSys_get_ge ks inputs i hiN]
  · show (List.range j).filter _ ++ _ = (List.range ks.length).filter _
    rw [← h0, range_succ_filter]

end StlabChannel

namespace StlabChannel

theorem stepTask_desc_mid (ks : List ProcKind) (j : Nat) (vs done : List Int)
    (v : Int) (hwf : wfKinds ks = true) (hj2 : 2 ≤ j) (hj1 : j + 1 < ks.length) :
    Sys.stepTask { descSys ks j vs done v with tasks := [0] } j
      = descSys ks (j + 1) vs done v := by
  have hjN : j < ks.length := by omega
  have hj0 : ¬ j = 0 := by omega
  have hjne : ¬ j + 1 = ks.length := by omega
  have hgj : ({ descSys ks j vs done v with tasks := [0] } : Sys).get j
      = carrierStage ks done v j := by
    simp [descSys_get_carrier ks j vs done v (by omega)]
  rcases idle_shape _ (wf_idle ks hwf j hjN) with ⟨f, hc, hk⟩ | ⟨f, hc, hk⟩
  case inl.intro.intro =>
    have hk2 : ks[j]?.getD idK = ProcKind.mapK f hc := by simpa using hk
    rw [stepTask_eq_stepB _ j f hc (by rw [hgj]; simpa [carrierStage] using hk)]
    rw [stepB_pop_one _ j f _ hgj (valAt ks j v) (by simp [carrierStage])]
    rw [ctsUp_idle _ j (j - 1) ?hup (hotStage ks done v (j - 1)) ?hgu
      rfl rfl rfl ?hki]
    case hup => simp [carrierStage, upAt, hj0]
    case hgu =>
      have hne : ¬ j - 1 = j := by omega
      simp [hne, descSys_get_hot ks j vs done v hj2]
    case hki => simpa [hotStage] using wf_idle ks hwf (j - 1) (by omega)
    rw [broadcast_to _ j (j + 1) (f (valAt ks j v))
      { kind := ks.getD j idK, queue := [], running := true, suspendCount := 0,
        closeQueue := false, final := false, senderCount := 1,
        receiverCount := 0, upstream := upAt j, downstream := [j + 1],
        consumed := done.map (valAt ks j) ++ [valAt ks j v],
        sentOut := done.map (valAt ks (j + 1)),
        ctsInFromDown := ctsInAt ks.length j done.length, closeCount := 0 }
      (idleStage ks done (j + 1)) ?hgi rfl (by omega) ?hgd rfl rfl rfl]
    case hgi =>
      have hne : ¬ j = j - 1 := by omega
      simp [hne, carrierStage, downAt, hjne]
    case hgd =>
      have h1 : ¬ j + 1 = j - 1 := by omega
      have h2 : ¬ j + 1 = j := by omega
      simp [h1, h2, descSys_get_idle ks j vs done v (j + 1) (by omega) hj1]
    rw [cts_dec _ j
      { kind := ks.getD j idK, queue := [], running := true, suspendCount := 2,
        closeQueue := false, final := false, senderCount := 1,
        receiverCount := 0, upstream := upAt j, downstream := [j + 1],
        consumed := done.map (valAt ks j) ++ [valAt ks j v],
        sentOut := done.map (valAt ks (j + 1)) ++ [f (valAt ks j v)],
        ctsInFromDown := ctsInAt ks.length j done.length, closeCount := 0 }
      ?hgi2 rfl]
    case hgi2 =>
      have h2 : ¬ j = j + 1 := by omega
      have h3 : ¬ j = j - 1 := by omega
      simp [h2, h3]
    refine Sys.ext_pt _ _ (fun i => ?_) ?_ rfl rfl
    · by_cases hi0 : i = 0
      · subst hi0
        have e1 : ¬ (0 : Nat) = j := by omega
        have e2 : ¬ (0 : Nat) = j - 1 := by omega
        have e3 : ¬ (0 : Nat) = j + 1 := by omega
        have e4 : ¬ j + 1 = 1 := by omega
        have e5 : ¬ j = 1 := by omega
        simp [e1, e2, e3, descSys_get_zero, headDescStage, e4, e5]
      · by_cases hij : i = j
        · subst hij
          have hh : (descSys ks (i + 1) vs done v).get (i + 1 - 1)
              = hotStage ks done v (i + 1 - 1) :=
            descSys_get_hot ks (i + 1) vs done v (by omega)
          simp only [show i + 1 - 1 = i from by omega] at hh
          have e1 : ¬ i = i - 1 := by omega
          have e2 : ¬ i = i + 1 := by omega
          simp [e1, e2, hh, hotStage, carrierStage, ctsInAt, hjne, valAt, hk2,
            downAt, ProcKind.fn]
        · by_cases him : i = j - 1
          · subst him
            have e1 : ¬ j - 1 = j + 1 := by omega
            have hp : (descSys ks (j + 1) vs done v).get (j - 1)
                = passedStage ks done v (j - 1) :=
              descSys_get_passed ks (j + 1) vs done v (j - 1) (by omega) (by omega)
            simp [e1, hij, hp, hotStage, passedStage]
          · by_cases hid : i = j + 1
            · subst hid
              have e0 : ¬ j + 1 = j - 1 := by omega
              have hcarr : (descSys ks (j + 1) vs done v).get (j + 1)
                  = carrierStage ks done v (j + 1) :=
                descSys_get_carrier ks (j + 1) vs done v (by omega)
              simp [e0, hij, hcarr, idleStage, carrierStage, ctsInAt, valAt,
                hk2, downAt, ProcKind.fn]
            · rcases Nat.lt_or_ge i ks.length with hiN | hiN
              · rcases Nat.lt_or_ge i j with hlt | hgt
                · have hp1 : (descSys ks j vs done v).get i
                      = passedStage ks done v i :=
                    descSys_get_passed ks j vs done v i (by omega) (by omega)
                  have hp2 : (descSys ks (j + 1) vs done v).get i
                      = passedStage ks done v i :=
                    descSys_get_passed ks (j + 1) vs done v i (by omega) (by omega)
                  simp [hij, him, hid, hp1, hp2]
                · have hp1 : (descSys ks j vs done v).get i
                      = idleStage ks done i :=
                    descSys_get_idle ks j vs done v i (by omega) hiN
                  have hp2 : (descSys ks (j + 1) vs done v).get i
                      = idleStage ks done i :=
                    descSys_get_idle ks (j + 1) vs done v i (by omega) hiN
                  simp [hij, him, hid, hp1, hp2]
              · have hp1 : (descSys ks j vs done v).get i = baseStage ks i :=
                  descSys_get_base ks j vs done v i (by omega) hiN
                have hp2 : (descSys ks (j + 1) vs done v).get i = baseStage ks i :=
                  descSys_get_base ks (j + 1) vs done v i (by omega) hiN
                simp [hij, him, hid, hp1, hp2]
    · have e4 : ¬ j + 1 = 1 := by omega
      simp [descSys, e4]
  case inr.intro.intro =>
    have hk2 : ks[j]?.getD idK = ProcKind.fnK f hc none := by simpa using hk
    rw [stepTask_eq_stepA _ j f hc none (by rw [hgj]; simpa [carrierStage] using hk)]
    rw [stepA_pop_one _ j (j - 1) f hc _ hgj (valAt ks j v)
      (by simp [carrierStage]) (by simpa [carrierStage] using hk)
      (by simp [carrierStage, upAt, hj0]) (by omega)]
    rw [ctsUp_idle _ j (j - 1) ?hup (hotStage ks done v (j - 1)) ?hgu
      rfl rfl rfl ?hki]
    case hup => simp [carrierStage, upAt, hj0]
    case hgu =>
      have hne : ¬ j - 1 = j := by omega
      simp [hne, descSys_get_hot ks j vs done v hj2]
    case hki => simpa [hotStage] using wf_idle ks hwf (j - 1) (by omega)
    rw [broadcast_to _ j (j + 1) (f (valAt ks j v))
      { kind := ProcKind.fnK f hc none, queue := [], running := true,
        suspendCount := 0, closeQueue := false, final := false, senderCount := 1,
        receiverCount := 0, upstream := upAt j, downstream := [j + 1],
        consumed := done.map (valAt ks j) ++ [valAt ks j v],
        sentOut := done.map (valAt ks (j + 1)),
        ctsInFromDown := ctsInAt ks.length j done.length, closeCount := 0 }
      (idleStage ks done (j + 1)) ?hgi rfl (by omega) ?hgd rfl rfl rfl]
    case hgi =>
      have hne : ¬ j = j - 1 := by omega
      simp [hne, carrierStage, downAt, hjne]
    case hgd =>
      have h1 : ¬ j + 1 = j - 1 := by omega
      have h2 : ¬ j + 1 = j := by omega
      simp [h1, h2, descSys_get_idle ks j vs done v (j + 1) (by omega) hj1]
    rw [cts_dec _ j
      { kind := ProcKind.fnK f hc none, queue := [], running := true,
        suspendCount := 2, closeQueue := false, final := false, senderCount := 1,
        receiverCount := 0, upstream := upAt j, downstream := [j + 1],
        consumed := done.map (valAt ks j) ++ [valAt ks j v],
        sentOut := done.map (valAt ks (j + 1)) ++ [f (valAt ks j v)],
        ctsInFromDown := ctsInAt ks.length j done.length, closeCount := 0 }
      ?hgi2 rfl]
    case hgi2 =>
      have h2 : ¬ j = j + 1 := by omega
      have h3 : ¬ j = j - 1 := by omega
      simp [h2, h3]
    refine Sys.ext_pt _ _ (fun i => ?_) ?_ rfl rfl
    · by_cases hi0 : i = 0
      · subst hi0
        have e1 : ¬ (0 : Nat) = j := by omega
        have e2 : ¬ (0 : Nat) = j - 1 := by omega
        have e3 : ¬ (0 : Nat) = j + 1 := by omega
        have e4 : ¬ j + 1 = 1 := by omega
        have e5 : ¬ j = 1 := by omega
        simp [e1, e2, e3, descSys_get_zero, headDescStage, e4, e5]
      · by_cases hij : i = j
        · subst hij
          have hh : (descSys ks (i + 1) vs done v).get (i + 1 - 1)
              = hotStage ks done v (i + 1 - 1) :=
            descSys_get_hot ks (i + 1) vs done v (by omega)
          simp only [show i + 1 - 1 = i from by omega] at hh
          have e1 : ¬ i = i - 1 := by omega
          have e2 : ¬ i = i + 1 := by omega
          simp [e1, e2, hh, hotStage, carrierStage, ctsInAt, hjne, valAt, hk2,
            downAt, ProcKind.fn]
        · by_cases him : i = j - 1
          · subst him
            have e1 : ¬ j - 1 = j + 1 := by omega
            have hp : (descSys ks (j + 1) vs done v).get (j - 1)
                = passedStage ks done v (j - 1) :=
              descSys_get_passed ks (j + 1) vs done v (j - 1) (by omega) (by omega)
            simp [e1, hij, hp, hotStage, passedStage]
          · by_cases hid : i = j + 1
            · subst hid
              have e0 : ¬ j + 1 = j - 1 := by omega
              have hcarr : (descSys ks (j + 1) vs done v).get (j + 1)
                  = carrierStage ks done v (j + 1) :=
                descSys_get_carrier ks (j + 1) vs done v (by omega)
              simp [e0, hij, hcarr, idleStage, carrierStage, ctsInAt, valAt,
                hk2, downAt, ProcKind.fn]
            · rcases Nat.lt_or_ge i ks.length with hiN | hiN
              · rcases Nat.lt_or_ge i j with hlt | hgt
                · have hp1 : (descSys ks j vs done v).get i
                      = passedStage ks done v i :=
                    descSys_get_passed ks j vs done v i (by omega) (by omega)
                  have hp2 : (descSys ks (j + 1) vs done v).get i
                      = passedStage ks done v i :=
                    descSys_get_passed ks (j + 1) vs done v i (by omega) (by omega)
                  simp [hij, him, hid, hp1, hp2]
                · have hp1 : (descSys ks j vs done v).get i
                      = idleStage ks done i :=
                    descSys_get_idle ks j vs done v i (by omega) hiN
                  have hp2 : (descSys ks (j + 1) vs done v).get i
                      = idleStage ks done i :=
                    descSys_get_idle ks (j + 1) vs done v i (by omega) hiN
                  simp [hij, him, hid, hp1, hp2]
              · have hp1 : (descSys ks j vs done v).get i = baseStage ks i :=
                  descSys_get_base ks j vs done v i (by omega) hiN
                have hp2 : (descSys ks (j + 1) vs done v).get i = baseStage ks i :=
                  descSys_get_base ks (j + 1) vs done v i (by omega) hiN
                simp [hij, him, hid, hp1, hp2]
    · have e4 : ¬ j + 1 = 1 := by omega
      simp [descSys, e4]

end StlabChannel

namespace StlabChannel

theorem stepTask_desc_one (ks : List ProcKind) (vs done : List Int)
    (v : Int) (hwf : wfKinds ks = true) (hN : 2 + 1 ≤ ks.length) :
    Sys.stepTask { descSys ks 1 vs done v with tasks := [] } 1
      = descSys ks 2 vs done v := by
  have h1N : 1 < ks.length := by omega
  have h2ne : ¬ 1 + 1 = ks.length := by omega
  have hgj : ({ descSys ks 1 vs done v with tasks := [] } : Sys).get 1
      = carrierStage ks done v 1 := by
    simp [descSys_get_carrier ks 1 vs done v (by omega)]
  have hgu0 : ∀ s0 : Sys, (s0.set 1
      { carrierStage ks done v 1 with
        queue := [],
        consumed := (carrierStage ks done v 1).consumed ++ [valAt ks 1 v] }).get 0
      = s0.get 0 := by
    intro s0
    simp
  rcases idle_shape _ (wf_idle ks hwf 1 h1N) with ⟨f, hc, hk⟩ | ⟨f, hc, hk⟩
  case inl.intro.intro =>
    have hk2 : ks[1]?.getD idK = ProcKind.mapK f hc := by simpa using hk
    rw [stepTask_eq_stepB _ 1 f hc (by rw [hgj]; simpa [carrierStage] using hk)]
    rw [stepB_pop_one _ 1 f _ hgj (valAt ks 1 v) (by simp [carrierStage])]
    rw [ctsUp_busy _ 1 0 ?hup (headDescStage ks 1 vs done v) ?hgu rfl rfl]
    case hup => simp [carrierStage, upAt]
    case hgu => simp [descSys_get_zero]
    rw [broadcast_to _ 1 2 (f (valAt ks 1 v))
      { kind := ks.getD 1 idK, queue := [], running := true, suspendCount := 0,
        closeQueue := false, final := false, senderCount := 1,
        receiverCount := 0, upstream := upAt 1, downstream := [2],
        consumed := done.map (valAt ks 1) ++ [valAt ks 1 v],
        sentOut := done.map (valAt ks 2),
        ctsInFromDown := ctsInAt ks.length 1 done.length, closeCount := 0 }
      (idleStage ks done 2) ?hgi rfl (by omega) ?hgd rfl rfl rfl]
    case hgi => simp [carrierStage, downAt, h2ne]
    case hgd => simp [descSys_get_idle ks 1 vs done v 2 (by omega) (by omega)]
    rw [cts_dec _ 1
      { kind := ks.getD 1 idK, queue := [], running := true, suspendCount := 2,
        closeQueue := false, final := false, senderCount := 1,
        receiverCount := 0, upstream := upAt 1, downstream := [2],
        consumed := done.map (valAt ks 1) ++ [valAt ks 1 v],
        sentOut := done.map (valAt ks 2) ++ [f (valAt ks 1 v)],
        ctsInFromDown := ctsInAt ks.length 1 done.length, closeCount := 0 }
      ?hgi2 rfl]
    case hgi2 => simp
    refine Sys.ext_pt _ _ (fun i => ?_) ?_ rfl rfl
    · by_cases hi0 : i = 0
      · subst hi0
        simp [descSys_get_zero, headDescStage]
      · by_cases hij : i = 1
        · subst hij
          have hh : (descSys ks 2 vs done v).get (2 - 1)
              = hotStage ks done v (2 - 1) :=
            descSys_get_hot ks 2 vs done v (by omega)
          norm_num at hh
          simp [hh, hotStage, carrierStage, ctsInAt, h2ne, valAt, hk2,
            downAt, ProcKind.fn]
        · by_cases hid : i = 2
          · subst hid
            have hcarr : (descSys ks 2 vs done v).get 2
                = carrierStage ks done v 2 :=
              descSys_get_carrier ks 2 vs done v (by omega)
            simp [hij, hcarr, idleStage, carrierStage, ctsInAt, valAt,
              hk2, downAt, ProcKind.fn]
          · rcases Nat.lt_or_ge i ks.length with hiN | hiN
            · have hp1 : (descSys ks 1 vs done v).get i = idleStage ks done i :=
                descSys_get_idle ks 1 vs done v i (by omega) hiN
              have hp2 : (descSys ks 2 vs done v).get i = idleStage ks done i :=
                descSys_get_idle ks 2 vs done v i (by omega) hiN
              simp [hi0, hij, hid, hp1, hp2]
            · have hp1 : (descSys ks 1 vs done v).get i = baseStage ks i :=
                descSys_get_base ks 1 vs done v i (by omega) hiN
              have hp2 : (descSys ks 2 vs done v).get i = baseStage ks i :=
                descSys_get_base ks 2 vs done v i (by omega) hiN
              simp [hi0, hij, hid, hp1, hp2]
    · simp [descSys]
  case inr.intro.intro =>
    have hk2 : ks[1]?.getD idK = ProcKind.fnK f hc none := by simpa using hk
    rw [stepTask_eq_stepA _ 1 f hc none (by rw [hgj]; simpa [carrierStage] using hk)]
    rw [stepA_pop_one _ 1 0 f hc _ hgj (valAt ks 1 v)
      (by simp [carrierStage]) (by simpa [carrierStage] using hk)
      (by simp [carrierStage, upAt]) (by omega)]
    rw [ctsUp_busy _ 1 0 ?hup (headDescStage ks 1 vs done v) ?hgu rfl rfl]
    case hup => simp [carrierStage, upAt]
    case hgu => simp [descSys_get_zero]
    rw [broadcast_to _ 1 2 (f (valAt ks 1 v))
      { kind := ProcKind.fnK f hc none, queue := [], running := true,
        suspendCount := 0,
        closeQueue := false, final := false, senderCount := 1,
        receiverCount := 0, upstream := upAt 1, downstream := [2],
        consumed := done.map (valAt ks 1) ++ [valAt ks 1 v],
        sentOut := done.map (valAt ks 2),
        ctsInFromDown := ctsInAt ks.length 1 done.length, closeCount := 0 }
      (idleStage ks done 2) ?hgi rfl (by omega) ?hgd rfl rfl rfl]
    case hgi => simp [carrierStage, downAt, h2ne]
    case hgd => simp [descSys_get_idle ks 1 vs done v 2 (by omega) (by omega)]
    rw [cts_dec _ 1
      { kind := ProcKind.fnK f hc none, queue := [], running := true,
        suspendCount := 2,
        closeQueue := false, final := false, senderCount := 1,
        receiverCount := 0, upstream := upAt 1, downstream := [2],
        consumed := done.map (valAt ks 1) ++ [valAt ks 1 v],
        sentOut := done.map (valAt ks 2) ++ [f (valAt ks 1 v)],
        ctsInFromDown := ctsInAt ks.length 1 done.length, closeCount := 0 }
      ?hgi2 rfl]
    case hgi2 => simp
    refine Sys.ext_pt _ _ (fun i => ?_) ?_ rfl rfl
    · by_cases hi0 : i = 0
      · subst hi0
        simp [descSys_get_zero, headDescStage]
      · by_cases hij : i = 1
        · subst hij
          have hh : (descSys ks 2 vs done v).get (2 - 1)
              = hotStage ks done v (2 - 1) :=
            descSys_get_hot ks 2 vs done v (by omega)
          norm_num at hh
          simp [hh, hotStage, carrierStage, ctsInAt, h2ne, valAt, hk2,
            downAt, ProcKind.fn]
        · by_cases hid : i = 2
          · subst hid
            have hcarr : (descSys ks 2 vs done v).get 2
                = carrierStage ks done v 2 :=
              descSys_get_carrier ks 2 vs done v (by omega)
            simp [hij, hcarr, idleStage, carrierStage, ctsInAt, valAt,
              hk2, downAt, ProcKind.fn]
          · rcases Nat.lt_or_ge i ks.length with hiN | hiN
            · have hp1 : (descSys ks 1 vs done v).get i = idleStage ks done i :=
                descSys_get_idle ks 1 vs done v i (by omega) hiN
              have hp2 : (descSys ks 2 vs done v).get i = idleStage ks done i :=
                descSys_get_idle ks 2 vs done v i (by omega) hiN
              simp [hi0, hij, hid, hp1, hp2]
            · have hp1 : (descSys ks 1 vs done v).get i = baseStage ks i :=
                descSys_get_base ks 1 vs done v i (by omega) hiN
              have hp2 : (descSys ks 2 vs done v).get i = baseStage ks i :=
                descSys_get_base ks 2 vs done v i (by omega) hiN
              simp [hi0, hij, hid, hp1, hp2]
    · simp [descSys]

end StlabChannel

namespace StlabChannel

theorem stepTask_desc_last (ks : List ProcKind) (j : Nat) (vs done : List Int)
    (v : Int) (hwf : wfKinds ks = true) (hj2 : 2 ≤ j) (h0 : j + 1 = ks.length) :
    Sys.stepTask { descSys ks j vs done v with tasks := [0] } j
      = cycSys ks vs (done ++ [v]) := by
  have hjN : j < ks.length := by omega
  have hj0 : ¬ j = 0 := by omega
  have hgj : ({ descSys ks j vs done v with tasks := [0] } : Sys).get j
      = carrierStage ks done v j := by
    simp [descSys_get_carrier ks j vs done v (by omega)]
  rcases idle_shape _ (wf_idle ks hwf j hjN) with ⟨f, hc, hk⟩ | ⟨f, hc, hk⟩
  case inl.intro.intro =>
    have hk2 : ks[j]?.getD idK = ProcKind.mapK f hc := by simpa using hk
    rw [stepTask_eq_stepB _ j f hc (by rw [hgj]; simpa [carrierStage] using hk)]
    rw [stepB_pop_one _ j f _ hgj (valAt ks j v) (by simp [carrierStage])]
    rw [ctsUp_idle _ j (j - 1) ?hup (hotStage ks done v (j - 1)) ?hgu
      rfl rfl rfl ?hki]
    case hup => simp [carrierStage, upAt, hj0]
    case hgu =>
      have hne : ¬ j - 1 = j := by omega
      simp [hne, descSys_get_hot ks j vs done v hj2]
    case hki => simpa [hotStage] using wf_idle ks hwf (j - 1) (by omega)
    rw [broadcast_nil _ j (f (valAt ks j v))
      { kind := ks.getD j idK, queue := [], running := true, suspendCount := 0,
        closeQueue := false, final := false, senderCount := 1,
        receiverCount := 0, upstream := upAt j, downstream := [],
        consumed := done.map (valAt ks j) ++ [valAt ks j v],
        sentOut := done.map (valAt ks (j + 1)),
        ctsInFromDown := ctsInAt ks.length j done.length, closeCount := 0 }
      ?hgi rfl rfl]
    case hgi =>
      have hne : ¬ j = j - 1 := by omega
      simp [hne, carrierStage, downAt, h0]
    rw [cts_zero_idle _ j
      { kind := ks.getD j idK, queue := [], running := true, suspendCount := 1,
        closeQueue := false, final := false, senderCount := 1,
        receiverCount := 0, upstream := upAt j, downstream := [],
        consumed := done.map (valAt ks j) ++ [valAt ks j v],
        sentOut := done.map (valAt ks (j + 1)) ++ [f (valAt ks j v)],
        ctsInFromDown := ctsInAt ks.length j done.length, closeCount := 0 }
      ?hgi2 rfl (by simpa using wf_idle ks hwf j hjN) rfl rfl]
    case hgi2 =>
      have h3 : ¬ j = j - 1 := by omega
      simp [h3]
    refine Sys.ext_pt _ _ (fun i => ?_) rfl rfl rfl
    by_cases hi0 : i = 0
    · subst hi0
      have e5 : ¬ j = 1 := by omega
      have e6 : ¬ (0 : Nat) + 1 = ks.length := by omega
      have e8 : ¬ (0 : Nat) = j := by omega
      have e9 : ¬ (0 : Nat) = j - 1 := by omega
      simp [hj0, e8, e9, descSys_get_zero, cycSys_get_zero, headDescStage,
        headCycStage, e5, ctsInAt, e6]
    · by_cases hij : i = j
      · subst hij
        have hcy : (cycSys ks vs (done ++ [v])).get i = idleStage ks (done ++ [v]) i :=
          cycSys_get_pos ks vs (done ++ [v]) i (by omega) hjN
        have e7 : downAt ks.length i = [] := by simp [downAt, h0]
        have ev : valAt ks (i + 1) v = f (valAt ks i v) := by
          simp [valAt, hk2, ProcKind.fn]
        have e10 : ctsInAt ks.length i done.length = 0 := by simp [ctsInAt, h0]
        have e11 : ctsInAt ks.length i (done.length + 1) = 0 := by
          simp [ctsInAt, h0]
        simp [hcy, idleStage, carrierStage, e7, ev, e10, e11]
      · by_cases him : i = j - 1
        · subst him
          have e1 : ¬ j - 1 = j := by omega
          have hcy : (cycSys ks vs (done ++ [v])).get (j - 1)
              = idleStage ks (done ++ [v]) (j - 1) :=
            cycSys_get_pos ks vs (done ++ [v]) (j - 1) (by omega) (by omega)
          have e7 : ¬ j - 1 + 1 = ks.length := by omega
          simp [e1, hcy, hotStage, idleStage, ctsInAt, e7]
        · rcases Nat.lt_or_ge i ks.length with hiN | hiN
          · have hlt : i < j := by omega
            have hp1 : (descSys ks j vs done v).get i = passedStage ks done v i :=
              descSys_get_passed ks j vs done v i (by omega) (by omega)
            have hcy : (cycSys ks vs (done ++ [v])).get i
                = idleStage ks (done ++ [v]) i :=
              cycSys_get_pos ks vs (done ++ [v]) i (by omega) hiN
            have e7 : ¬ i + 1 = ks.length := by omega
            simp [hij, him, hp1, hcy, passedStage, idleStage, ctsInAt, e7]
          · have hp1 : (descSys ks j vs done v).get i = baseStage ks i :=
              descSys_get_base ks j vs done v i (by omega) hiN
            have hcy : (cycSys ks vs (done ++ [v])).get i = baseStage ks i :=
              cycSys_get_base ks vs (done ++ [v]) i hiN (by omega)
            simp [hij, him, hp1, hcy]
  case inr.intro.intro =>
    have hk2 : ks[j]?.getD idK = ProcKind.fnK f hc none := by simpa using hk
    rw [stepTask_eq_stepA _ j f hc none (by rw [hgj]; simpa [carrierStage] using hk)]
    rw [stepA_pop_one _ j (j - 1) f hc _ hgj (valAt ks j v)
      (by simp [carrierStage]) (by simpa [carrierStage] using hk)
      (by simp [carrierStage, upAt, hj0]) (by omega)]
    rw [ctsUp_idle _ j (j - 1) ?hup (hotStage ks done v (j - 1)) ?hgu
      rfl rfl rfl ?hki]
    case hup => simp [carrierStage, upAt, hj0]
    case hgu =>
      have hne : ¬ j - 1 = j := by omega
      simp [hne, descSys_get_hot ks j vs done v hj2]
    case hki => simpa [hotStage] using wf_idle ks hwf (j - 1) (by omega)
    rw [broadcast_nil _ j (f (valAt ks j v))
      { kind := ProcKind.fnK f hc none, queue := [], running := true,
        suspendCount := 0,
        closeQueue := false, final := false, senderCount := 1,
        receiverCount := 0, upstream := upAt j, downstream := [],
        consumed := done.map (valAt ks j) ++ [valAt ks j v],
        sentOut := done.map (valAt ks (j + 1)),
        ctsInFromDown := ctsInAt ks.length j done.length, closeCount := 0 }
      ?hgi rfl rfl]
    case hgi =>
      have hne : ¬ j = j - 1 := by omega
      simp [hne, carrierStage, downAt, h0]
    rw [cts_zero_idle _ j
      { kind := ProcKind.fnK f hc none, queue := [], running := true,
        suspendCount := 1,
        closeQueue := false, final := false, senderCount := 1,
        receiverCount := 0, upstream := upAt j, downstream := [],
        consumed := done.map (valAt ks j) ++ [valAt ks j v],
        sentOut := done.map (valAt ks (j + 1)) ++ [f (valAt ks j v)],
        ctsInFromDown := ctsInAt ks.length j done.length, closeCount := 0 }
      ?hgi2 rfl rfl rfl rfl]
    case hgi2 =>
      have h3 : ¬ j = j - 1 := by omega
      simp [h3]
    refine Sys.ext_pt _ _ (fun i => ?_) rfl rfl rfl
    by_cases hi0 : i = 0
    · subst hi0
      have e5 : ¬ j = 1 := by omega
      have e6 : ¬ (0 : Nat) + 1 = ks.length := by omega
      have e8 : ¬ (0 : Nat) = j := by omega
      have e9 : ¬ (0 : Nat) = j - 1 := by omega
      simp [hj0, e8, e9, descSys_get_zero, cycSys_get_zero, headDescStage,
        headCycStage, e5, ctsInAt, e6]
    · by_cases hij : i = j
      · subst hij
        have hcy : (cycSys ks vs (done ++ [v])).get i = idleStage ks (done ++ [v]) i :=
          cycSys_get_pos ks vs (done ++ [v]) i (by omega) hjN
        have e7 : downAt ks.length i = [] := by simp [downAt, h0]
        have ev : valAt ks (i + 1) v = f (valAt ks i v) := by
          simp [valAt, hk2, ProcKind.fn]
        have e10 : ctsInAt ks.length i done.length = 0 := by simp [ctsInAt, h0]
        have e11 : ctsInAt ks.length i (done.length + 1) = 0 := by
          simp [ctsInAt, h0]
        simp [hcy, idleStage, carrierStage, e7, ev, e10, e11, hk2]
      · by_cases him : i = j - 1
        · subst him
          have e1 : ¬ j - 1 = j := by omega
          have hcy : (cycSys ks vs (done ++ [v])).get (j - 1)
              = idleStage ks (done ++ [v]) (j - 1) :=
            cycSys_get_pos ks vs (done ++ [v]) (j - 1) (by omega) (by omega)
          have e7 : ¬ j - 1 + 1 = ks.length := by omega
          simp [e1, hcy, hotStage, idleStage, ctsInAt, e7]
        · rcases Nat.lt_or_ge i ks.length with hiN | hiN
          · have hp1 : (descSys ks j vs done v).get i = passedStage ks done v i :=
              descSys_get_passed ks j vs done v i (by omega) (by omega)
            have hcy : (cycSys ks vs (done ++ [v])).get i
                = idleStage ks (done ++ [v]) i :=
              cycSys_get_pos ks vs (done ++ [v]) i (by omega) hiN
            have e7 : ¬ i + 1 = ks.length := by omega
            simp [hij, him, hp1, hcy, passedStage, idleStage, ctsInAt, e7]
          · have hp1 : (descSys ks j vs done v).get i = baseStage ks i :=
              descSys_get_base ks j vs done v i (by omega) hiN
            have hcy : (cycSys ks vs (done ++ [v])).get i = baseStage ks i :=
              cycSys_get_base ks vs (done ++ [v]) i hiN (by omega)
            simp [hij, him, hp1, hcy]

end StlabChannel

namespace StlabChannel

theorem stepTask_desc_last_one (ks : List ProcKind) (vs done : List Int)
    (v : Int) (hwf : wfKinds ks = true) (h0 : 1 + 1 = ks.length) :
    Sys.stepTask { descSys ks 1 vs done v with tasks := [] } 1
      = cycSys ks vs (done ++ [v]) := by
  have hjN : 1 < ks.length := by omega
  have hgj : ({ descSys ks 1 vs done v with tasks := [] } : Sys).get 1
      = carrierStage ks done v 1 := by
    simp [descSys_get_carrier ks 1 vs done v (by omega)]
  rcases idle_shape _ (wf_idle ks hwf 1 hjN) with ⟨f, hc, hk⟩ | ⟨f, hc, hk⟩
  case inl.intro.intro =>
    have hk2 : ks[1]?.getD idK = ProcKind.mapK f hc := by simpa using hk
    rw [stepTask_eq_stepB _ 1 f hc (by rw [hgj]; simpa [carrierStage] using hk)]
    rw [stepB_pop_one _ 1 f _ hgj (valAt ks 1 v) (by simp [carrierStage])]
    rw [ctsUp_busy _ 1 0 ?hup (headDescStage ks 1 vs done v) ?hgu rfl rfl]
    case hup => simp [carrierStage, upAt]
    case hgu => simp [descSys_get_zero]
    rw [broadcast_nil _ 1 (f (valAt ks 1 v))
      { kind := ks.getD 1 idK, queue := [], running := true, suspendCount := 0,
        closeQueue := false, final := false, senderCount := 1,
        receiverCount := 0, upstream := upAt 1, downstream := [],
        consumed := done.map (valAt ks 1) ++ [valAt ks 1 v],
        sentOut := done.map (valAt ks 2),
        ctsInFromDown := ctsInAt ks.length 1 done.length, closeCount := 0 }
      ?hgi rfl rfl]
    case hgi =>
      have e7 : downAt ks.length 1 = [] := by simp [downAt, h0]
      simp [carrierStage, e7]
    rw [cts_zero_idle _ 1
      { kind := ks.getD 1 idK, queue := [], running := true, suspendCount := 1,
        closeQueue := false, final := false, senderCount := 1,
        receiverCount := 0, upstream := upAt 1, downstream := [],
        consumed := done.map (valAt ks 1) ++ [valAt ks 1 v],
        sentOut := done.map (valAt ks 2) ++ [f (valAt ks 1 v)],
        ctsInFromDown := ctsInAt ks.length 1 done.length, closeCount := 0 }
      ?hgi2 rfl (by simpa using wf_idle ks hwf 1 hjN) rfl rfl]
    case hgi2 => simp
    refine Sys.ext_pt _ _ (fun i => ?_) rfl rfl rfl
    by_cases hi0 : i = 0
    · subst hi0
      have e6 : ¬ (0 : Nat) + 1 = ks.length := by omega
      simp [descSys_get_zero, cycSys_get_zero, headDescStage,
        headCycStage, ctsInAt, e6]
    · by_cases hij : i = 1
      · subst hij
        have hcy : (cycSys ks vs (done ++ [v])).get 1 = idleStage ks (done ++ [v]) 1 :=
          cycSys_get_pos ks vs (done ++ [v]) 1 (by omega) hjN
        have e7 : downAt ks.length 1 = [] := by simp [downAt, h0]
        have ev : valAt ks 2 v = f (valAt ks 1 v) := by
          simp [valAt, hk2, ProcKind.fn]
        have e10 : ctsInAt ks.length 1 done.length = 0 := by simp [ctsInAt, h0]
        have e11 : ctsInAt ks.length 1 (done.length + 1) = 0 := by
          simp [ctsInAt, h0]
        simp [hcy, idleStage, carrierStage, e7, ev, e10, e11]
      · have hiN : ks.length ≤ i := by omega
        have hp1 : (descSys ks 1 vs done v).get i = baseStage ks i :=
          descSys_get_base ks 1 vs done v i (by omega) hiN
        have hcy : (cycSys ks vs (done ++ [v])).get i = baseStage ks i :=
          cycSys_get_base ks vs (done ++ [v]) i hiN (by omega)
        simp [hi0, hij, hp1, hcy]
  case inr.intro.intro =>
    have hk2 : ks[1]?.getD idK = ProcKind.fnK f hc none := by simpa using hk
    rw [stepTask_eq_stepA _ 1 f hc none (by rw [hgj]; simpa [carrierStage] using hk)]
    rw [stepA_pop_one _ 1 0 f hc _ hgj (valAt ks 1 v)
      (by simp [carrierStage]) (by simpa [carrierStage] using hk)
      (by simp [carrierStage, upAt]) (by omega)]
    rw [ctsUp_busy _ 1 0 ?hup (headDescStage ks 1 vs done v) ?hgu rfl rfl]
    case hup => simp [carrierStage, upAt]
    case hgu => simp [descSys_get_zero]
    rw [broadcast_nil _ 1 (f (valAt ks 1 v))
      { kind := ProcKind.fnK f hc none, queue := [], running := true,
        suspendCount := 0,
        closeQueue := false, final := false, senderCount := 1,
        receiverCount := 0, upstream := upAt 1, downstream := [],
        consumed := done.map (valAt ks 1) ++ [valAt ks 1 v],
        sentOut := done.map (valAt ks 2),
        ctsInFromDown := ctsInAt ks.length 1 done.length, closeCount := 0 }
      ?hgi rfl rfl]
    case hgi =>
      have e7 : downAt ks.length 1 = [] := by simp [downAt, h0]
      simp [carrierStage, e7]
    rw [cts_zero_idle _ 1
      { kind := ProcKind.fnK f hc none, queue := [], running := true,
        suspendCount := 1,
        closeQueue := false, final := false, senderCount := 1,
        receiverCount := 0, upstream := upAt 1, downstream := [],
        consumed := done.map (valAt ks 1) ++ [valAt ks 1 v],
        sentOut := done.map (valAt ks 2) ++ [f (valAt ks 1 v)],
        ctsInFromDown := ctsInAt ks.length 1 done.length, closeCount := 0 }
      ?hgi2 rfl rfl rfl rfl]
    case hgi2 => simp
    refine Sys.ext_pt _ _ (fun i => ?_) rfl rfl rfl
    by_cases hi0 : i = 0
    · subst hi0
      have e6 : ¬ (0 : Nat) + 1 = ks.length := by omega
      simp [descSys_get_zero, cycSys_get_zero, headDescStage,
        headCycStage, ctsInAt, e6]
    · by_cases hij : i = 1
      · subst hij
        have hcy : (cycSys ks vs (done ++ [v])).get 1 = idleStage ks (done ++ [v]) 1 :=
          cycSys_get_pos ks vs (done ++ [v]) 1 (by omega) hjN
        have e7 : downAt ks.length 1 = [] := by simp [downAt, h0]
        have ev : valAt ks 2 v = f (valAt ks 1 v) := by
          simp [valAt, hk2, ProcKind.fn]
        have e10 : ctsInAt ks.length 1 done.length = 0 := by simp [ctsInAt, h0]
        have e11 : ctsInAt ks.length 1 (done.length + 1) = 0 := by
          simp [ctsInAt, h0]
        simp [hcy, idleStage, carrierStage, e7, ev, e10, e11, hk2]
      · have hiN : ks.length ≤ i := by omega
        have hp1 : (descSys ks 1 vs done v).get i = baseStage ks i :=
          descSys_get_base ks 1 vs done v i (by omega) hiN
        have hcy : (cycSys ks vs (done ++ [v])).get i = baseStage ks i :=
          cycSys_get_base ks vs (done ++ [v]) i hiN (by omega)
        simp [hi0, hij, hp1, hcy]

end StlabChannel

namespace StlabChannel

theorem stepTask_cyc_start (ks : List ProcKind) (vs done : List Int) (v : Int)
    (hwf : wfKinds ks = true) (hN : 2 ≤ ks.length) :
    Sys.stepTask { cycSys ks (v :: vs) done with tasks := [] } 0
      = descSys ks 1 vs done v := by
  have h1 : ¬ (0 : Nat) + 1 = ks.length := by omega
  rw [step_consume_head _ 0 1 (by omega) (ks.getD 0 idK)
    (wf_idle ks hwf 0 (by omega)) v vs true 0
    (done.map (valAt ks 0)) (done.map (valAt ks 1))
    (ctsInAt ks.length 0 done.length) (idleStage ks done 1)
    ?hgj ?hgd rfl rfl]
  case hgj => simp [cycSys_get_zero, headCycStage, downAt, h1]
  case hgd => simp [cycSys_get_pos ks (v :: vs) done 1 (by omega) (by omega)]
  refine Sys.ext_pt _ _ (fun i => ?_) ?_ rfl rfl
  · by_cases hi0 : i = 0
    · subst hi0
      simp [descSys_get_zero, headDescStage, ctsInAt, downAt, h1, valAt]
    · by_cases hi1 : i = 1
      · subst hi1
        have hcarr : (descSys ks 1 vs done v).get 1 = carrierStage ks done v 1 :=
          descSys_get_carrier ks 1 vs done v (by omega)
        simp [hcarr, idleStage, carrierStage, valAt]
      · rcases Nat.lt_or_ge i ks.length with hiN | hiN
        · have hp1 : (cycSys ks (v :: vs) done).get i = idleStage ks done i :=
            cycSys_get_pos ks (v :: vs) done i (by omega) hiN
          have hp2 : (descSys ks 1 vs done v).get i = idleStage ks done i :=
            descSys_get_idle ks 1 vs done v i (by omega) hiN
          simp [hi0, hi1, hp1, hp2]
        · have hp1 : (cycSys ks (v :: vs) done).get i = baseStage ks i :=
            cycSys_get_base ks (v :: vs) done i hiN (by omega)
          have hp2 : (descSys ks 1 vs done v).get i = baseStage ks i :=
            descSys_get_base ks 1 vs done v i (by omega) hiN
          simp [hi0, hi1, hp1, hp2]
  · simp [descSys]

theorem stepTask_cyc_single (ks : List ProcKind) (vs done : List Int) (v : Int)
    (hwf : wfKinds ks = true) (hN : ks.length = 1) :
    Sys.stepTask { cycSys ks (v :: vs) done with tasks := [] } 0
      = cycSys ks vs (done ++ [v]) := by
  have h1 : (0 : Nat) + 1 = ks.length := by omega
  rw [step_consume_head_nodown _ 0 (ks.getD 0 idK)
    (wf_idle ks hwf 0 (by omega)) v vs 0
    (done.map (valAt ks 0)) (done.map (valAt ks 1))
    (ctsInAt ks.length 0 done.length) ?hgj]
  case hgj => simp [cycSys_get_zero, headCycStage, downAt, h1]
  refine Sys.ext_pt _ _ (fun i => ?_) rfl rfl rfl
  by_cases hi0 : i = 0
  · subst hi0
    simp [cycSys_get_zero, headCycStage, ctsInAt, downAt, h1, valAt]
  · have hiN : ks.length ≤ i := by omega
    have hp1 : (cycSys ks (v :: vs) done).get i = baseStage ks i :=
      cycSys_get_base ks (v :: vs) done i hiN (by omega)
    have hp2 : (cycSys ks vs (done ++ [v])).get i = baseStage ks i :=
      cycSys_get_base ks vs (done ++ [v]) i hiN (by omega)
    simp [hi0, hp1, hp2]

end StlabChannel

namespace StlabChannel

theorem finSys_zero (ks : List ProcKind) (inputs : List Int) :
    cycSys ks [] inputs = finSys ks inputs 0 := by
  refine Sys.ext_pt _ _ (fun i => ?_) rfl rfl rfl
  by_cases hi0 : i = 0
  · subst hi0
    simp [cycSys_get_zero, finSys_get_self, headCycStage, closerStage, upAt]
  · rcases Nat.lt_or_ge i ks.length with hiN | hiN
    · simp [cycSys_get_pos ks [] inputs i (by omega) hiN,
        finSys_get_gt ks inputs 0 i (by omega) hiN]
    · simp [cycSys_get_base ks [] inputs i hiN (by omega),
        finSys_get_base ks inputs 0 i (by omega) hiN]

theorem desc_aux (ks : List ProcKind) (vs done : List Int) (v : Int)
    (hwf : wfKinds ks = true) :
    ∀ (k j : Nat), 1 ≤ j → j + (k + 1) = ks.length →
      Sys.drain (k + 1) (descSys ks j vs done v) = cycSys ks vs (done ++ [v]) := by
  intro k
  induction k with
  | zero =>
    intro j hj1 hjN
    by_cases hj : j = 1
    · subst hj
      rw [Sys.drain_cons 0 _ 1 [] (by simp [descSys])]
      rw [show ({ descSys ks 1 vs done v with tasks := [] } : Sys)
          = { descSys ks 1 vs done v with tasks := [] } from rfl]
      rw [stepTask_desc_last_one ks vs done v hwf (by omega)]
      rfl
    · rw [Sys.drain_cons 0 _ j [0] (by simp [descSys, hj])]
      rw [stepTask_desc_last ks j vs done v hwf (by omega) (by omega)]
      rfl
  | succ m ih =>
    intro j hj1 hjN
    by_cases hj : j = 1
    · subst hj
      rw [Sys.drain_cons (m + 1) _ 1 [] (by simp [descSys])]
      rw [stepTask_desc_one ks vs done v hwf (by omega)]
      exact ih 2 (by omega) (by omega)
    · rw [Sys.drain_cons (m + 1) _ j [0] (by simp [descSys, hj])]
      rw [stepTask_desc_mid ks j vs done v hwf (by omega) (by omega)]
      exact ih (j + 1) (by omega) (by omega)

theorem one_cycle (ks : List ProcKind) (vs done : List Int) (v : Int)
    (hwf : wfKinds ks = true) (hN : 1 ≤ ks.length) :
    Sys.drain ks.length (cycSys ks (v :: vs) done)
      = cycSys ks vs (done ++ [v]) := by
  by_cases h1 : ks.length = 1
  · rw [h1]
    rw [Sys.drain_cons 0 _ 0 [] (by simp [cycSys])]
    rw [stepTask_cyc_single ks vs done v hwf h1]
    rfl
  · have h2 : 2 ≤ ks.length := by omega
    obtain ⟨m, hm⟩ : ∃ m, ks.length = m + 2 := ⟨ks.length - 2, by omega⟩
    rw [hm]
    rw [Sys.drain_cons (m + 1) _ 0 [] (by simp [cycSys])]
    rw [stepTask_cyc_start ks vs done v hwf h2]
    exact desc_aux ks vs done v hwf m 1 (by omega) (by omega)

theorem cycle_all (ks : List ProcKind) (hwf : wfKinds ks = true)
    (hN : 1 ≤ ks.length) :
    ∀ (pending done : List Int),
      Sys.drain (ks.length * pending.length) (cycSys ks pending done)
        = cycSys ks [] (done ++ pending) := by
  intro pending
  induction pending with
  | nil => intro done; simp [Sys.drain]
  | cons v vs ih =>
    intro done
    have harith : ks.length * (v :: vs).length
        = ks.length + ks.length * vs.length := by
      simp [List.length_cons]
      ring
    rw [harith, Sys.drain_add, one_cycle ks vs done v hwf hN, ih (done ++ [v])]
    simp

theorem casc_aux (ks : List ProcKind) (inputs : List Int)
    (hwf : wfKinds ks = true) :
    ∀ (k j : Nat), j + (k + 1) = ks.length →
      Sys.drain (k + 1) (finSys ks inputs j) = doneSys ks inputs := by
  intro k
  induction k with
  | zero =>
    intro j hjN
    rw [Sys.drain_cons 0 _ j [] (by simp [finSys])]
    rw [stepTask_fin_last ks inputs j hwf (by omega)]
    rfl
  | succ m ih =>
    intro j hjN
    rw [Sys.drain_cons (m + 1) _ j [] (by simp [finSys])]
    rw [stepTask_fin_mid ks inputs j hwf (by omega)]
    exact ih (j + 1) (by omega)

end StlabChannel

namespace StlabChannel

theorem mkPipeline_get (ks : List ProcKind) (i : Nat) :
    (mkPipeline ks).get i = baseStage ks i := rfl

theorem sendingSys_get_zero (ks : List ProcKind) (q : List Int) :
    (sendingSys ks q).get 0 = { baseStage ks 0 with queue := q, running := true } := rfl

theorem sendingSys_get_pos (ks : List ProcKind) (q : List Int) (i : Nat)
    (h : ¬ i = 0) :
    (sendingSys ks q).get i = baseStage ks i := by
  simp [sendingSys, Sys.get, h]

theorem send_first (ks : List ProcKind) (v : Int) :
    (mkPipeline ks).sendTo 0 v = sendingSys ks [v] := by
  rw [sendTo_fresh _ 0 v (baseStage ks 0) (mkPipeline_get ks 0) rfl rfl]
  refine Sys.ext_pt _ _ (fun i => ?_) rfl rfl rfl
  rw [Sys.get_schedule, Sys.get_set]
  by_cases hi0 : i = 0
  · subst hi0
    rw [if_pos rfl, sendingSys_get_zero]
    simp [baseStage]
  · rw [if_neg hi0, sendingSys_get_pos ks [v] i hi0, mkPipeline_get]

theorem send_more (ks : List ProcKind) (q : List Int) (v : Int) :
    (sendingSys ks q).sendTo 0 v = sendingSys ks (q ++ [v]) := by
  rw [sendTo_busy _ 0 v { baseStage ks 0 with queue := q, running := true }
    (sendingSys_get_zero ks q) rfl]
  refine Sys.ext_pt _ _ (fun i => ?_) rfl rfl rfl
  rw [Sys.get_set]
  by_cases hi0 : i = 0
  · subst hi0
    rw [if_pos rfl, sendingSys_get_zero]
  · rw [if_neg hi0, sendingSys_get_pos ks q i hi0,
      sendingSys_get_pos ks (q ++ [v]) i hi0]

theorem send_fold (ks : List ProcKind) :
    ∀ (vs q : List Int),
      List.foldl (fun acc v => acc.sendTo 0 v) (sendingSys ks q) vs
        = sendingSys ks (q ++ vs) := by
  intro vs
  induction vs with
  | nil => intro q; simp
  | cons v vs ih =>
    intro q
    simp only [List.foldl_cons]
    rw [send_more, ih]
    simp

theorem close_after_send (ks : List ProcKind) (q : List Int) :
    (sendingSys ks q).removeSender 0 = cycSys ks q [] := by
  rw [removeSender_one_busy _ 0 { baseStage ks 0 with queue := q, running := true }
    (sendingSys_get_zero ks q) rfl rfl]
  refine Sys.ext_pt _ _ (fun i => ?_) rfl rfl rfl
  rw [Sys.get_set]
  by_cases hi0 : i = 0
  · subst hi0
    rw [if_pos rfl, cycSys_get_zero]
    simp [baseStage, headCycStage, ctsInAt, upAt]
  · rw [if_neg hi0, sendingSys_get_pos ks q i hi0]
    rcases Nat.lt_or_ge i ks.length with hiN | hiN
    · rw [cycSys_get_pos ks q [] i (by omega) hiN]
      simp [baseStage, idleStage, ctsInAt]
    · rw [cycSys_get_base ks q [] i hiN (by omega)]

theorem close_empty (ks : List ProcKind) :
    (mkPipeline ks).removeSender 0 = cycSys ks [] [] := by
  rw [removeSender_one_fresh _ 0 (baseStage ks 0)
    (mkPipeline_get ks 0) rfl rfl rfl]
  refine Sys.ext_pt _ _ (fun i => ?_) rfl rfl rfl
  rw [Sys.get_schedule, Sys.get_set]
  by_cases hi0 : i = 0
  · subst hi0
    rw [if_pos rfl, cycSys_get_zero]
    simp [baseStage, headCycStage, ctsInAt, upAt]
  · rw [if_neg hi0, mkPipeline_get]
    rcases Nat.lt_or_ge i ks.length with hiN | hiN
    · rw [cycSys_get_pos ks [] [] i (by omega) hiN]
      simp [baseStage, idleStage, ctsInAt]
    · rw [cycSys_get_base ks [] [] i hiN (by omega)]

/-- Main run theorem: a linear pipeline with idle-shaped processes, driven
by one producer that sends every input and drops its sender handle, drains
to the fully final configuration described by `doneSys`. -/
theorem run_eq_done (ks : List ProcKind) (inputs : List Int)
    (hwf : wfKinds ks = true) (hN : 1 ≤ ks.length) :
    runPipeline ks inputs = doneSys ks inputs := by
  have hsend :
      (inputs.foldl (fun acc v => acc.sendTo 0 v) (mkPipeline ks)).removeSender 0
        = cycSys ks inputs [] := by
    cases inputs with
    | nil => exact close_empty ks
    | cons v vs =>
      simp only [List.foldl_cons]
      rw [send_first, send_fold, close_after_send]
      simp
  show Sys.drain (ks.length * inputs.length + ks.length + 1)
    ((inputs.foldl (fun acc v => acc.sendTo 0 v) (mkPipeline ks)).removeSender 0)
    = doneSys ks inputs
  rw [hsend]
  have harith : ks.length * inputs.length + ks.length + 1
      = ks.length * inputs.length + (ks.length + 1) := by ring
  rw [harith, Sys.drain_add, cycle_all ks hwf hN inputs []]
  have h2 : ([] : List Int) ++ inputs = inputs := by simp
  rw [h2, finSys_zero]
  obtain ⟨m, hm⟩ : ∃ m, ks.length = m + 1 := ⟨ks.length - 1, by omega⟩
  have h3 : ks.length + 1 = (m + 1) + 1 := by omega
  rw [h3, Sys.drain_add (m + 1) 1, casc_aux ks inputs hwf m 0 (by omega)]
  exact Sys.drain_nil 1 _ rfl

end StlabChannel

namespace StlabChannel

theorem getD_replicate_idK : ∀ (n i : Nat), (List.replicate n idK).getD i idK = idK
  | 0, _ => by simp [List.getD]
  | _ + 1, 0 => rfl
  | n + 1, i + 1 => by
    rw [List.replicate_succ]
    exact getD_replicate_idK n i

theorem valAt_replicate (n : Nat) : ∀ (i : Nat) (v : Int),
    valAt (List.replicate n idK) i v = v
  | 0, _ => rfl
  | i + 1, v => by
    simp only [valAt, getD_replicate_idK, valAt_replicate n i v]
    rfl

theorem wf_replicate (n : Nat) : wfKinds (List.replicate n idK) = true := by
  simp [wfKinds, idK, ProcKind.isIdle]

theorem sendTo_get_other (s : Sys) (i : Nat) (v : Int) (j : Nat) (hj : j ≠ i) :
    (s.sendTo i v).get j = s.get j := by
  simp only [Sys.sendTo]
  split <;> simp [Sys.get_set, hj]

theorem sendTo_suspendCount (s : Sys) (i : Nat) (v : Int) (j : Nat) :
    ((s.sendTo i v).get j).suspendCount = (s.get j).suspendCount := by
  by_cases hj : j = i
  · subst hj
    simp only [Sys.sendTo]
    split <;> simp [Sys.get_set]
  · rw [sendTo_get_other s i v j hj]

theorem sendTo_queue_self (s : Sys) (i : Nat) (v : Int) :
    ((s.sendTo i v).get i).queue = (s.get i).queue ++ [v] := by
  simp only [Sys.sendTo]
  split <;> simp [Sys.get_set]

theorem foldl_sendTo_get_other (rv : Int) :
    ∀ (l : List Nat) (s : Sys) (j : Nat), j ∉ l →
      ((l.foldl (fun acc x => acc.sendTo x rv) s).get j) = s.get j
  | [], _, _, _ => rfl
  | x :: xs, s, j, h => by
    have hx : j ≠ x := fun e => h (e ▸ List.mem_cons_self x xs)
    have hxs : j ∉ xs := fun e => h (List.mem_cons_of_mem x e)
    simp only [List.foldl_cons]
    rw [foldl_sendTo_get_other rv xs _ j hxs, sendTo_get_other s x rv j hx]

theorem foldl_sendTo_suspendCount (rv : Int) :
    ∀ (l : List Nat) (s : Sys) (j : Nat),
      ((l.foldl (fun acc x => acc.sendTo x rv) s).get j).suspendCount
        = ((s.get j)).suspendCount
  | [], _, _ => rfl
  | x :: xs, s, j => by
    simp only [List.foldl_cons]
    rw [foldl_sendTo_suspendCount rv xs _ j, sendTo_suspendCount s x rv j]

theorem sendTo_assertViolated (s : Sys) (i : Nat) (v : Int) :
    (s.sendTo i v).assertViolated = s.assertViolated := by
  simp only [Sys.sendTo]
  split <;> simp

theorem foldl_sendTo_assertViolated (rv : Int) :
    ∀ (l : List Nat) (s : Sys),
      (l.foldl (fun acc x => acc.sendTo x rv) s).assertViolated
        = s.assertViolated
  | [], _ => rfl
  | x :: xs, s => by
    simp only [List.foldl_cons]
    rw [foldl_sendTo_assertViolated rv xs _, sendTo_assertViolated]

theorem foldl_sendTo_queue (rv : Int) :
    ∀ (l : List Nat) (s : Sys) (j : Nat), j ∈ l → l.Nodup →
      ((l.foldl (fun acc x => acc.sendTo x rv) s).get j).queue
        = (s.get j).queue ++ [rv]
  | [], _, _, h, _ => absurd h (List.not_mem_nil _)
  | x :: xs, s, j, h, hnd => by
    simp only [List.foldl_cons]
    by_cases hjx : j = x
    · subst hjx
      have hxs : j ∉ xs := (List.nodup_cons.mp hnd).1
      rw [foldl_sendTo_get_other rv xs _ j hxs, sendTo_queue_self]
    · have hjxs : j ∈ xs := (List.mem_cons.mp h).resolve_left hjx
      rw [foldl_sendTo_queue rv xs _ j hjxs (List.nodup_cons.mp hnd).2,
        sendTo_get_other s x rv j hjx]

theorem forEachN_length_self {α : Type} : ∀ (l : List α), forEachN l l.length = l
  | [] => rfl
  | x :: xs => by simp [forEachN, forEachN_length_self xs]

theorem forEachN_append {α : Type} :
    ∀ (l extra : List α), forEachN (l ++ extra) l.length = l
  | [], e => by cases e <;> rfl
  | x :: xs, e => by simp [forEachN, forEachN_append xs e]

end StlabChannel

namespace StlabChannel

/-- C1: for every pipeline of `n` identity stages (with `i + 1 < n`, so stage
`i` has a downstream neighbour — the head `i = 0` in particular) through which
a producer sends `inputs`, stage `i` receives exactly `inputs.length` upstream
cts tokens: one per message its downstream neighbour dequeues, regardless of
how many messages are queued when a step runs. -/
theorem C1_upstream_cts_conserved (n : Nat) (inputs : List Int) (i : Nat)
    (hi : i + 1 < n) :
    ((runPipeline (List.replicate n idK) inputs).get i).ctsInFromDown
      = inputs.length := by
  rw [run_eq_done _ _ (wf_replicate n) (by simp only [List.length_replicate]; omega)]
  rw [doneSys_get_lt _ _ i (by simp only [List.length_replicate]; omega)]
  have hne : ¬ (i + 1 = n) := by omega
  simp [finalStage, ctsInAt, List.length_replicate, hne]

/-- C1 witness at `n = 2`, `inputs = [3, 5]`, head stage `i = 0`. -/
theorem C1_upstream_cts_conserved_witness :
    0 + 1 < 2 ∧
      ((runPipeline (List.replicate 2 idK) [3, 5]).get 0).ctsInFromDown = 2 :=
  ⟨by decide, C1_upstream_cts_conserved 2 [3, 5] 0 (by decide)⟩

/-- C2 (corrected): `operator|` allocates the downstream process with
`upstream` pointing at the current process, appends a sender for it to the
current process's downstream list, and returns a not-ready receiver for the
new process — but it does NOT mark the current receiver ready: no
`remove_receiver` is issued, so the current process's `receiver_count` is
unchanged. -/
theorem C2_compose_leaves_receiver_count (s : Sys) (r : RecvHandle) (j : Nat)
    (k : ProcKind) (hj : j ≠ r.proc) :
    ((composeOp s r j k).1.get r.proc).receiverCount
        = (s.get r.proc).receiverCount
  ∧ ((composeOp s r j k).1.get j).upstream = some r.proc
  ∧ ((composeOp s r j k).1.get r.proc).downstream
        = (s.get r.proc).downstream ++ [j]
  ∧ (composeOp s r j k).2.proc = j
  ∧ (composeOp s r j k).2.ready = false := by
  refine ⟨?_, ?_, ?_, rfl, rfl⟩ <;>
    simp [composeOp, Sys.get_set, hj, Ne.symm hj, composedStage]

/-- C2 witness: composing the fresh channel head with an identity lambda at
fresh index 1. -/
theorem C2_compose_leaves_receiver_count_witness :
    (1 : Nat) ≠ (0 : Nat) ∧
      (((composeOp channelSys ⟨0, false⟩ 1 idK).1.get 0).receiverCount
          = (channelSys.get 0).receiverCount
        ∧ ((composeOp channelSys ⟨0, false⟩ 1 idK).1.get 1).upstream = some 0
        ∧ ((composeOp channelSys ⟨0, false⟩ 1 idK).1.get 0).downstream
            = (channelSys.get 0).downstream ++ [1]
        ∧ (composeOp channelSys ⟨0, false⟩ 1 idK).2.proc = 1
        ∧ (composeOp channelSys ⟨0, false⟩ 1 idK).2.ready = false) :=
  ⟨by decide, C2_compose_leaves_receiver_count channelSys ⟨0, false⟩ 1 idK (by decide)⟩

/-- C2 counterexample to the frozen claim: on the freshly built channel head
(receiver count 1), composing with `| identity` leaves the receiver count at
1 — the receiver was not marked ready — and a subsequent explicit `set_ready`
still performs the release, dropping the count to 0. -/
theorem C2_compose_not_ready_cex :
    ((composeOp channelSys ⟨0, false⟩ 1 idK).1.get 0).receiverCount = 1
  ∧ ((setReady (composeOp channelSys ⟨0, false⟩ 1 idK).1 ⟨0, false⟩).1.get 0).receiverCount
        = 0 :=
  ⟨rfl, rfl⟩

/-- C3 (code bug): the receiver copy constructor as written reaches
`_p->add_sender()`; resolved against `shared_process` (the only implementer)
the copy bumps `sender_count` and leaves `receiver_count` unchanged — not the
receiver-count increment the claim states.  Destruction of a not-ready
receiver does decrement `receiver_count` by one. -/
theorem C3_receiver_copy_wrong_counter (s : Sys) (r : RecvHandle) :
    ((receiverCopy s r).1.get r.proc).receiverCount
        = (s.get r.proc).receiverCount
  ∧ ((receiverCopy s r).1.get r.proc).senderCount
        = (s.get r.proc).senderCount + 1
  ∧ ((receiverDrop s { proc := r.proc, ready := false }).get r.proc).receiverCount
        = (s.get r.proc).receiverCount - 1 := by
  refine ⟨?_, ?_, ?_⟩
  · simp [receiverCopy, Sys.addSender, Sys.get_set]
  · simp [receiverCopy, Sys.addSender, Sys.get_set]
  · simp only [receiverDrop, reduceIte, Sys.removeReceiver]
    split
    · split <;> simp [Sys.get_set]
    · simp [Sys.get_set]

/-- C4: FIFO — a producer sending `inputs` through an identity channel into a
single mapping stage `f` makes that stage consume the values in enqueue order
and emit `inputs.map f` in order. -/
theorem C4_fifo_order (f : Int → Int) (inputs : List Int) :
    ((runPipeline [idK, ProcKind.mapK f false] inputs).get 1).consumed = inputs
  ∧ ((runPipeline [idK, ProcKind.mapK f false] inputs).get 1).sentOut
      = inputs.map f := by
  rw [run_eq_done [idK, ProcKind.mapK f false] inputs (by rfl) (by simp),
    doneSys_get_lt _ _ 1 (by simp)]
  constructor
  · simp [finalStage, valAt, idK, ProcKind.fn]
  · simp [finalStage, valAt, idK, ProcKind.fn]

/-- C5: `broadcast` requires `suspend_count = 0` at its start — the contract
assertion `_process_suspend_count == 0` is recorded as violated exactly when
that fails — snapshots the downstream size `n`, sets
`suspend_count := n + 1`, and delivers the value exactly once to each of the
first `n` downstream senders; `for_each_n` visits only the first `n` entries
of the (possibly grown) list, so a sender appended after the snapshot receives
nothing from this round. -/
theorem C5_broadcast_snapshot (s : Sys) (u : Nat) (rv : Int) (j : Nat)
    (extra : List Nat) (hj : j ∈ (s.get u).downstream)
    (hnd : (s.get u).downstream.Nodup) :
    (s.broadcast u rv).assertViolated
        = (s.assertViolated || !((s.get u).suspendCount == 0))
  ∧ ((s.broadcast u rv).get u).suspendCount
        = (s.get u).downstream.length + 1
  ∧ ((s.broadcast u rv).get j).queue = (s.get j).queue ++ [rv]
  ∧ forEachN ((s.get u).downstream ++ extra) (s.get u).downstream.length
        = (s.get u).downstream := by
  refine ⟨?_, ?_, ?_, forEachN_append _ extra⟩
  · simp only [Sys.broadcast, forEachN_length_self]
    rw [foldl_sendTo_assertViolated]
    simp
  · simp only [Sys.broadcast, forEachN_length_self]
    rw [foldl_sendTo_suspendCount]
    simp [Sys.get_set]
  · simp only [Sys.broadcast, forEachN_length_self]
    rw [foldl_sendTo_queue rv _ _ j hj hnd]
    by_cases hju : j = u
    · subst hju
      simp [Sys.get_set]
    · simp [Sys.get_set, hju]

/-- C5 witness: the head of a two-stage pipeline (at `suspend_count = 0`, so
the assertion does not fire) broadcasting 7 to its single downstream sender,
with a late joiner 9 outside the snapshot. -/
theorem C5_broadcast_snapshot_witness :
    (1 ∈ ((cycSys [idK, idK] [] []).get 0).downstream
      ∧ ((cycSys [idK, idK] [] []).get 0).downstream.Nodup)
  ∧ (((cycSys [idK, idK] [] []).broadcast 0 7).assertViolated
        = ((cycSys [idK, idK] [] []).assertViolated
            || !(((cycSys [idK, idK] [] []).get 0).suspendCount == 0))
    ∧ (((cycSys [idK, idK] [] []).broadcast 0 7).get 0).suspendCount
        = ((cycSys [idK, idK] [] []).get 0).downstream.length + 1
    ∧ (((cycSys [idK, idK] [] []).broadcast 0 7).get 1).queue
        = ((cycSys [idK, idK] [] []).get 1).queue ++ [7]
    ∧ forEachN (((cycSys [idK, idK] [] []).get 0).downstream ++ [9])
          ((cycSys [idK, idK] [] []).get 0).downstream.length
        = ((cycSys [idK, idK] [] []).get 0).downstream) :=
  ⟨⟨by decide, by decide⟩,
    C5_broadcast_snapshot (cycSys [idK, idK] [] []) 0 7 1 [9] (by decide) (by decide)⟩

/-- C6: when a `cts` call decrements `suspend_count` to zero, another step is
scheduled iff the process reports `yield`, the queue is non-empty, or
`close_queue` is set; otherwise `process_running` is cleared and nothing is
scheduled. -/
theorem C6_cts_zero_transition (s : Sys) (i : Nat)
    (h1 : (s.get i).suspendCount = 1) :
    if (s.get i).kind.procState = PState.yield ∨ (s.get i).queue ≠ []
        ∨ (s.get i).closeQueue = true then
      (s.cts i).tasks = i :: s.tasks
        ∧ ((s.cts i).get i).running = (s.get i).running
        ∧ ((s.cts i).get i).suspendCount = 0
    else
      (s.cts i).tasks = s.tasks
        ∧ ((s.cts i).get i).running = false
        ∧ ((s.cts i).get i).suspendCount = 0 := by
  by_cases hP : (s.get i).kind.procState = PState.yield ∨ (s.get i).queue ≠ []
      ∨ (s.get i).closeQueue = true
  · rw [if_pos hP]
    refine ⟨?_, ?_, ?_⟩ <;> simp [Sys.cts, h1, hP, Sys.get_set]
  · rw [if_neg hP]
    refine ⟨?_, ?_, ?_⟩ <;> simp [Sys.cts, h1, hP, Sys.get_set]

/-- C6 witness: a stage at `suspend_count = 1` with a pending close receives
the final cts and schedules another step without clearing `running`. -/
theorem C6_cts_zero_transition_witness :
    (ctsDemoSys.get 0).suspendCount = 1
  ∧ ((ctsDemoSys.cts 0).tasks = 0 :: ctsDemoSys.tasks
      ∧ ((ctsDemoSys.cts 0).get 0).running = (ctsDemoSys.get 0).running
      ∧ ((ctsDemoSys.cts 0).get 0).suspendCount = 0) := by
  refine ⟨rfl, ?_⟩
  have h := C6_cts_zero_transition ctsDemoSys 0 rfl
  have hc : (ctsDemoSys.get 0).kind.procState = PState.yield
      ∨ (ctsDemoSys.get 0).queue ≠ [] ∨ (ctsDemoSys.get 0).closeQueue = true :=
    Or.inr (Or.inr rfl)
  rwa [if_pos hc] at h

/-- C7: over every modeled pipeline run the `task_done` contract assertion
`!(do_run && do_final)` never fires: the ghost violation flag stays false. -/
theorem C7_taskdone_assert_never_fires (ks : List ProcKind) (inputs : List Int)
    (hwf : wfKinds ks = true) (hN : 1 ≤ ks.length) :
    (runPipeline ks inputs).assertViolated = false := by
  rw [run_eq_done ks inputs hwf hN]
  rfl

/-- C7 witness: a two-stage identity pipeline over inputs `[1, 2]`. -/
theorem C7_taskdone_assert_never_fires_witness :
    wfKinds [idK, idK] = true ∧ 1 ≤ ([idK, idK] : List ProcKind).length
  ∧ (runPipeline [idK, idK] [1, 2]).assertViolated = false :=
  ⟨rfl, by decide, C7_taskdone_assert_never_fires [idK, idK] [1, 2] rfl (by decide)⟩

/-- C8 (corrected): close hooks fire only on the `has_process_yield` step
path: the run's close log is exactly the yield-with-close stages in
upstream-to-downstream order, and stage `i`'s hook runs once when its process
type has both `yield` and `close`, never otherwise — in particular a
`close()` member on a yield-less process is never invoked. -/
theorem C8_close_hooks (ks : List ProcKind) (inputs : List Int) (i : Nat)
    (hwf : wfKinds ks = true) (hN : 1 ≤ ks.length) (hi : i < ks.length) :
    (runPipeline ks inputs).closeLog
        = (List.range ks.length).filter (fun j => (ks.getD j idK).isYieldWithClose)
  ∧ ((runPipeline ks inputs).get i).closeCount
        = if (ks.getD i idK).isYieldWithClose then 1 else 0 := by
  rw [run_eq_done ks inputs hwf hN]
  refine ⟨rfl, ?_⟩
  rw [doneSys_get_lt _ _ i hi]
  simp [finalStage]

/-- C8 witness: identity head into a yield-with-close stage over input `[4]`:
the close log is exactly `[1]`. -/
theorem C8_close_hooks_witness :
    wfKinds ksWit = true ∧ 1 ≤ ksWit.length ∧ 1 < ksWit.length
  ∧ ((runPipeline ksWit [4]).closeLog
        = (List.range ksWit.length).filter
            (fun j => (ksWit.getD j idK).isYieldWithClose)
    ∧ ((runPipeline ksWit [4]).get 1).closeCount
        = if (ksWit.getD 1 idK).isYieldWithClose then 1 else 0) :=
  ⟨rfl, by decide, by decide,
    C8_close_hooks ksWit [4] 1 rfl (by decide) (by decide)⟩

/-- C8 counterexample to the frozen claim: a pipeline whose second stage is a
yield-less process WITH a `close()` member (`has_process_close` true,
`has_process_yield` false): after the full run that stage went final, yet its
hook never fired — the close log is empty and its hook count 0. -/
theorem C8_close_hooks_cex :
    (runPipeline [idK, ProcKind.mapK (fun x => x) true] [3]).closeLog = []
  ∧ ((runPipeline [idK, ProcKind.mapK (fun x => x) true] [3]).get 1).closeCount = 0
  ∧ ((runPipeline [idK, ProcKind.mapK (fun x => x) true] [3]).get 1).final = true :=
  ⟨rfl, rfl, rfl⟩

/-- C9: a sender call or close through an expired weak reference is a no-op,
and a scheduled step task whose shared process was destroyed before the
executor ran it is a no-op; through a live reference the same call sends. -/
theorem C9_expired_weak_refs_noop (s : Sys) (v : Int) (i : Nat) :
    senderCall s ⟨none⟩ v = s
  ∧ (senderClose s ⟨none⟩).1 = s
  ∧ (senderClose s ⟨none⟩).2 = ⟨none⟩
  ∧ runTask s none = s
  ∧ senderCall s ⟨some i⟩ v = s.sendTo i v :=
  ⟨rfl, rfl, rfl, rfl, rfl⟩

/-- C10: in the `has_process_yield` step, after the dequeue loop the step
transitions to `task_done` only when the state is exactly `await`; a drained
queue with the process reporting `await_try` still calls `yield()` and
broadcasts the result, exactly as if the state were `yield` (while `await`
does go to task-done). -/
theorem C10_awaittry_yields (st : YStage) (hq : st.queue = [])
    (hcq : st.closeQueue = false) (hf : st.final = false)
    (hp : st.pstate = PState.await_try) :
    stepY st = stepY { st with pstate := PState.yield }
  ∧ (stepY st).taskDoneRuns = st.taskDoneRuns
  ∧ (stepY st).broadcasts = st.broadcasts ++ [st.yieldVal]
  ∧ (stepY { st with pstate := PState.await }).taskDoneRuns
        = st.taskDoneRuns + 1 := by
  obtain ⟨p, oa, yv, ay, hc, q, rn, sc, cq, fn, nd, uc, bc, td, cr, sch⟩ := st
  simp only at hq hcq hf hp
  subst hq hcq hf hp
  have e1 : stepY ⟨PState.await_try, oa, yv, ay, hc, [], rn, sc, false, false,
        nd, uc, bc, td, cr, sch⟩
      = ctsY (broadcastY ⟨ay, oa, yv, ay, hc, [], rn, sc, false, false,
          nd, uc, bc, td, cr, sch⟩ yv) := by
    simp [stepY, stepYLoop, dequeueY]
  have e2 : stepY ⟨PState.yield, oa, yv, ay, hc, [], rn, sc, false, false,
        nd, uc, bc, td, cr, sch⟩
      = ctsY (broadcastY ⟨ay, oa, yv, ay, hc, [], rn, sc, false, false,
          nd, uc, bc, td, cr, sch⟩ yv) := by
    simp [stepY, stepYLoop, dequeueY]
  refine ⟨?_, ?_, ?_, ?_⟩
  · rw [e1, e2]
  · rw [e1]
    simp [ctsY, broadcastY, apply_ite]
  · rw [e1]
    simp [ctsY, broadcastY, apply_ite]
  · simp [stepY, stepYLoop, dequeueY, taskDoneY]

/-- C10 witness: the drained `await_try` stage `yDemo`. -/
theorem C10_awaittry_yields_witness :
    (yDemo.queue = [] ∧ yDemo.closeQueue = false ∧ yDemo.final = false
      ∧ yDemo.pstate = PState.await_try)
  ∧ (stepY yDemo = stepY { yDemo with pstate := PState.yield }
      ∧ (stepY yDemo).taskDoneRuns = yDemo.taskDoneRuns
      ∧ (stepY yDemo).broadcasts = yDemo.broadcasts ++ [yDemo.yieldVal]
      ∧ (stepY { yDemo with pstate := PState.await }).taskDoneRuns
            = yDemo.taskDoneRuns + 1) :=
  ⟨⟨rfl, rfl, rfl, rfl⟩, C10_awaittry_yields yDemo rfl rfl rfl rfl⟩

end StlabChannel
